import Mathlib

/-!
# XChip: plugin handle, SDL plugins, process utility and resource wrappers

A shallow embedding of `XChip/include/XChip/Plugins/UniquePlugin.h` together with the
plugin entry points `XCHIP_LoadPlugin` / `XCHIP_FreePlugin` of the SDL plugins, of
`SdlInput` (key table, `UpdateKeys`, `WaitKeyPress`), of `utility::Process` (POSIX and
Win32 variants), of `SdlSound` (`Play`, `Stop`, the audio callback), of `SdlRender`
(`UpdateEvents`, `Initialize`, `Dispose`, `CreateTexture`), of `FillRomPath` and of
`RWrap`.

Pointers are modelled as `Option` (`none` is `nullptr`).  Every function that calls out of
the handle (a deleter, the log, `dlclose`) returns a `Run`: the list of observable events
in program order, and the returned value, or `none` when the process was terminated by
`std::exit` inside a plugin deleter.  The other components return their events as a list
next to the new state.
-/

namespace XChip

/-- The three interfaces `UniquePlugin<T>` may be instantiated with (the `static_assert`
at the top of the class). -/
inductive Capability where
  | iRender
  | iInput
  | iSound
deriving DecidableEq, Repr

/-- A value of type `PluginDeleter`: the `XCHIP_FreePlugin` function of a plugin module.
`cls` is the concrete plugin class that function `dynamic_cast`s its argument to
(`SdlRender`, `SdlInput`, `SdlSound`, ...). -/
structure PluginDeleter where
  cls : Nat
deriving DecidableEq, Repr

/-- An object behind an `iPlugin*`. -/
structure iPlugin where
  /-- Address of the object -/
  addr : Nat
  /-- Its dynamic (most derived) class -/
  cls : Nat
  /-- The interfaces the class derives from: `dynamic_cast<T*>` succeeds iff `T` is listed -/
  ifaces : List Capability
  /-- What the virtual `GetPluginDeleter()` returns (`none` is a null function pointer) -/
  GetPluginDeleter : Option PluginDeleter
deriving DecidableEq, Repr

/-- A shared library as seen through its handle.
`loadSym` is the resolution of `XCHIP_LOAD_PLUGIN_SYM`: `none` when the symbol is missing,
otherwise the value the factory returns (`some none` is a factory returning null).
`freeSym` is the resolution of `XCHIP_FREE_PLUGIN_SYM`. -/
structure Module where
  handle : Nat
  loadSym : Option (Option iPlugin)
  freeSym : Option PluginDeleter
deriving DecidableEq, Repr

/-- The class `utility::DLoader`: it owns at most one module handle. -/
structure DLoader where
  _handle : Option Module
deriving DecidableEq, Repr

/-- The data members of `UniquePlugin<T>`. -/
structure UniquePlugin where
  _dloader : DLoader
  _plugin : Option iPlugin
deriving DecidableEq, Repr

/-- The messages written with `LOGerr` / `LogError`. -/
inductive LogMsg where
  /-- Message "Failed to get the plugin loader symbol!" -/
  | loaderSymbolMissing
  /-- Message "PluginLoader function in %s, returned a null plugin!" -/
  | nullPlugin (dlPath : String)
  /-- Message "Error Loading plugin: %s. Failed to dynamic cast from iPlugin!" -/
  | castFromIPluginFailed (dlPath : String)
  /-- Message "Failed to load plugin deleter. trying GetPluginDeleter method..." -/
  | deleterSymbolMissing
  /-- Message "GetPluginDeleter failed...  Trying deleting in place, prepare for crash..." -/
  | getPluginDeleterFailed
  /-- Message "XCHIP_FreePlugin: dynamic_cast iPlugin to ... failed!", logged by the plugin -/
  | freePluginCastFailed (cls : Nat)
deriving DecidableEq, Repr

/-- Where the function pointer invoked by `call_deleter` came from. -/
inductive DeleterSource where
  /-- The result of `dloader.GetSymbol(XCHIP_FREE_PLUGIN_SYM)` on a loader holding module `m` -/
  | moduleSymbol (m : Module)
  /-- The result of `plugin->GetPluginDeleter()` -/
  | objectMethod
deriving DecidableEq, Repr

/-- Observable events, in program order. -/
inductive Event where
  /-- A line written to the error log -/
  | log (msg : LogMsg)
  /-- The call `pluginDeleter(plugin)`: the function `d` obtained from `src` is invoked on `p` -/
  | call (src : DeleterSource) (d : PluginDeleter) (p : iPlugin)
  /-- The `delete plugin;` statement of `call_deleter` is reached for `p` -/
  | deleteInPlace (p : iPlugin)
  /-- A delete expression ran on `p`: destructor and deallocation -/
  | destroyed (p : iPlugin)
  /-- The call `std::exit(EXIT_FAILURE)` -/
  | processExit
  /-- The module is unloaded (`DLoader` releases its handle) -/
  | unload (m : Module)
  /-- A data member of the handle was written; `h` is the handle afterwards -/
  | state (h : UniquePlugin)
deriving DecidableEq, Repr

/-- An execution: the events it produced, and its return value unless the process exited. -/
structure Run (α : Type) where
  trace : List Event
  result : Option α
deriving DecidableEq, Repr

/-- Sequencing of executions: the continuation runs only if the first part returned. -/
def Run.andThen {α β : Type} (r : Run α) (k : α → Run β) : Run β :=
  match r.result with
  | none => ⟨r.trace, none⟩
  | some a => ⟨r.trace ++ (k a).trace, (k a).result⟩

/-- An execution that only produces events and returns `a`. -/
def Run.ret {α : Type} (es : List Event) (a : α) : Run α := ⟨es, some a⟩

/-- What the handle cannot see of its surroundings: the dynamic linker, and the part of
`DLoader` whose source decides when a replaced module is released. -/
structure World where
  /-- The module `dlopen`/`LoadLibrary` yields for a path (`none`: cannot be opened) -/
  dlopen : String → Option Module
  /-- Whether `DLoader::operator=(DLoader&&)` exchanges the two handles (the replaced
  module is then released by the destructor of the moved-from loader) or releases the
  replaced module at once -/
  moveAssignSwaps : Bool

/-! ## `utility::DLoader` -/

/-- Modelled from the spec: `DLoader::Load` (XChip/Utility/DLoader.h is not among the
sources), called on a default-constructed loader: "Open the module from the given path
(failure: module not found / load error)". -/
def DLoader.Load (w : World) (dlPath : String) : Bool × DLoader :=
  match w.dlopen dlPath with
  | some m => (true, ⟨some m⟩)
  | none => (false, ⟨none⟩)

/-- Modelled from the spec: `DLoader::GetSymbol(XCHIP_LOAD_PLUGIN_SYM)`, "Resolve a fixed,
well-known create instance symbol (failure: missing entry point)"; a loader without a
module resolves nothing. -/
def DLoader.GetSymbol_load (self : DLoader) : Option (Option iPlugin) :=
  match self._handle with
  | some m => m.loadSym
  | none => none

/-- Modelled from the spec: `DLoader::GetSymbol(XCHIP_FREE_PLUGIN_SYM)`, "resolve a fixed
destroy instance symbol"; a loader without a module resolves nothing. The result carries
the module the symbol was found in. -/
def DLoader.GetSymbol_free (self : DLoader) : Option (Module × PluginDeleter) :=
  match self._handle with
  | some m =>
    match m.freeSym with
    | some d => some (m, d)
    | none => none
  | none => none

/-- Modelled from the spec: `DLoader::Free`, "the module itself is unloaded ... no module
loaded". -/
def DLoader.Free (self : DLoader) : List Event × DLoader :=
  match self._handle with
  | some m => ([Event.unload m], ⟨none⟩)
  | none => ([], self)

/-- Modelled from the spec: `DLoader::~DLoader`, releasing the module still owned when
the loader goes out of scope. -/
def DLoader.destructor (self : DLoader) : List Event :=
  (DLoader.Free self).1

/-- Modelled from the spec: `DLoader::Swap`, exchanging the module handles. -/
def DLoader.Swap (self other : DLoader) : DLoader × DLoader :=
  (other, self)

/-- Modelled from the spec: `DLoader::DLoader(DLoader&&)`: the new loader takes the
module, the source keeps none. Returns (constructed, source). -/
def DLoader.moveConstruct (other : DLoader) : DLoader × DLoader :=
  (other, ⟨none⟩)

/-- Modelled from the spec: `DLoader::operator=(DLoader&&)`. Afterwards `self` owns the
module of `other`; the module `self` owned is either handed to `other` (swap) or released
at once. Returns the events, `self` and `other`. -/
def DLoader.moveAssign (w : World) (self other : DLoader) : List Event × DLoader × DLoader :=
  if w.moveAssignSwaps then
    ([], (DLoader.Swap self other).1, (DLoader.Swap self other).2)
  else
    ((DLoader.Free self).1, other, ⟨none⟩)

/-! ## Plugin side: `XCHIP_FreePlugin` -/

/-- The function `XCHIP_FreePlugin` (SdlInput.cpp:247, SdlSound.cpp:334, SdlRender.cpp:514): the
argument is `dynamic_cast` to the concrete class of the module; on failure the error is
logged and the process exits, otherwise the object is deleted. -/
def XCHIP_FreePlugin (d : PluginDeleter) (plugin : iPlugin) : Run Unit :=
  if plugin.cls = d.cls then
    Run.ret [Event.destroyed plugin] ()
  else
    ⟨[Event.log (LogMsg.freePluginCastFailed d.cls), Event.processExit], none⟩

/-! ## `UniquePlugin<T>` -/

/-- The test `dynamic_cast<T*>(iplug) != nullptr`. -/
def dynamic_cast (T : Capability) (iplug : iPlugin) : Bool :=
  decide (T ∈ iplug.ifaces)

/-- Source `UniquePlugin<T>::call_deleter(dloader, plugin)`. -/
def call_deleter (dloader : DLoader) (plugin : iPlugin) : Run Unit :=
  match dloader.GetSymbol_free with
  | some (m, pluginDeleter) =>
    (Run.ret [Event.call (DeleterSource.moduleSymbol m) pluginDeleter plugin] ()).andThen
      fun _ => XCHIP_FreePlugin pluginDeleter plugin
  | none =>
    match plugin.GetPluginDeleter with
    | some pluginDeleter =>
      (Run.ret [Event.log LogMsg.deleterSymbolMissing,
                Event.call DeleterSource.objectMethod pluginDeleter plugin] ()).andThen
        fun _ => XCHIP_FreePlugin pluginDeleter plugin
    | none =>
      Run.ret [Event.log LogMsg.deleterSymbolMissing,
               Event.log LogMsg.getPluginDeleterFailed,
               Event.deleteInPlace plugin,
               Event.destroyed plugin] ()

/-- Constructors `UniquePlugin()` and `UniquePlugin(nullptr_t)`: no module, no object. -/
def UniquePlugin.empty : UniquePlugin := ⟨⟨none⟩, none⟩

/-- Conversion `operator bool`. -/
def UniquePlugin.toBool (self : UniquePlugin) : Bool :=
  self._plugin.isSome

/-- Accessor `get()` (const and non-const). -/
def UniquePlugin.get (self : UniquePlugin) : Option iPlugin :=
  self._plugin

/-- Source `UniquePlugin<T>::Free()`. -/
def UniquePlugin.Free (self : UniquePlugin) : Run UniquePlugin :=
  match self._plugin with
  | some plugin =>
    (call_deleter self._dloader plugin).andThen fun _ =>
      Run.ret
        ([Event.state ⟨self._dloader, none⟩]
          ++ (DLoader.Free self._dloader).1
          ++ [Event.state ⟨(DLoader.Free self._dloader).2, none⟩])
        ⟨(DLoader.Free self._dloader).2, none⟩
  | none => Run.ret [] self

/-- Destructor `UniquePlugin<T>::~UniquePlugin()`: `this->Free()`. -/
def UniquePlugin.destructor (self : UniquePlugin) : Run UniquePlugin :=
  self.Free

/-- Source `UniquePlugin<T>::Load(dlPath)`. The result is the returned `bool` and the handle. -/
def UniquePlugin.Load (w : World) (T : Capability) (self : UniquePlugin) (dlPath : String) :
    Run (Bool × UniquePlugin) :=
  match DLoader.Load w dlPath with
  | (false, _) => Run.ret [] (false, self)
  | (true, newLoader) =>
    match newLoader.GetSymbol_load with
    | none =>
      Run.ret ([Event.log LogMsg.loaderSymbolMissing] ++ newLoader.destructor) (false, self)
    | some none =>
      Run.ret ([Event.log (LogMsg.nullPlugin dlPath)] ++ newLoader.destructor) (false, self)
    | some (some iplug) =>
      if dynamic_cast T iplug then
        (match self._plugin with
          | some plugin => call_deleter self._dloader plugin
          | none => Run.ret [] ()).andThen fun _ =>
        Run.ret
          ((DLoader.moveAssign w self._dloader newLoader).1
            ++ [Event.state ⟨(DLoader.moveAssign w self._dloader newLoader).2.1, self._plugin⟩,
                Event.state ⟨(DLoader.moveAssign w self._dloader newLoader).2.1, some iplug⟩]
            ++ (DLoader.moveAssign w self._dloader newLoader).2.2.destructor)
          (true, ⟨(DLoader.moveAssign w self._dloader newLoader).2.1, some iplug⟩)
      else
        (Run.ret [Event.log (LogMsg.castFromIPluginFailed dlPath)] ()).andThen fun _ =>
        (call_deleter self._dloader iplug).andThen fun _ =>
        Run.ret newLoader.destructor (false, self)

/-! ## The plugins of the repository -/

/-- The object `new SdlRender()` (class 0), as returned by `XCHIP_LoadPlugin` in SdlRender.cpp. -/
def sdlRender : iPlugin := ⟨4096, 0, [Capability.iRender], some ⟨0⟩⟩

/-- The object `new SdlInput()` (class 1), as returned by `XCHIP_LoadPlugin` in SdlInput.cpp. -/
def sdlInput : iPlugin := ⟨8192, 1, [Capability.iInput], some ⟨1⟩⟩

/-- The object `new SdlSound()` (class 2), as returned by `XCHIP_LoadPlugin` in SdlSound.cpp. -/
def sdlSound : iPlugin := ⟨12288, 2, [Capability.iSound], some ⟨2⟩⟩

/-- An `SdlAndroidInput` object (class 3, SdlAndroidInput.h). -/
def sdlAndroidInput : iPlugin := ⟨16384, 3, [Capability.iInput], some ⟨3⟩⟩

/-- The module `./XChipSDLRender`. -/
def XChipSDLRender : Module := ⟨1, some (some sdlRender), some ⟨0⟩⟩

/-- The module `./XChipSDLInput`. -/
def XChipSDLInput : Module := ⟨2, some (some sdlInput), some ⟨1⟩⟩

/-- The module `./XChipSDLSound`. -/
def XChipSDLSound : Module := ⟨3, some (some sdlSound), some ⟨2⟩⟩

/-- A second input module, exporting `SdlAndroidInput`. -/
def XChipSDLAndroidInput : Module := ⟨4, some (some sdlAndroidInput), some ⟨3⟩⟩

/-- The modules found on disk by the test program (Test/test.cpp), plus the second input
module; any other path cannot be opened. -/
def testDlopen (dlPath : String) : Option Module :=
  if dlPath = "./XChipSDLRender" then some XChipSDLRender
  else if dlPath = "./XChipSDLInput" then some XChipSDLInput
  else if dlPath = "./XChipSDLSound" then some XChipSDLSound
  else if dlPath = "./XChipSDLAndroidInput" then some XChipSDLAndroidInput
  else none

/-- A world in which the move assignment of `DLoader` swaps. -/
def testWorld : World := ⟨testDlopen, true⟩

/-- A world in which the move assignment of `DLoader` releases at once. -/
def testWorldRelease : World := ⟨testDlopen, false⟩

/-- An input handle that has loaded `./XChipSDLInput`. -/
def loadedInput : UniquePlugin := ⟨⟨some XChipSDLInput⟩, some sdlInput⟩

/-- An input plugin object of a module that exports no `XCHIP_FreePlugin` (class 5). -/
def bareInput : iPlugin := ⟨20480, 5, [Capability.iInput], some ⟨5⟩⟩

/-- An input module exporting only the factory symbol. -/
def bareInputModule : Module := ⟨5, some (some bareInput), none⟩

/-- An input handle holding the object of `bareInputModule`. -/
def loadedBareInput : UniquePlugin := ⟨⟨some bareInputModule⟩, some bareInput⟩

/-- The destruction actions `call_deleter` can take: invoking a deleter function on an
object, or the in-place `delete`. -/
def Event.isDestruction : Event → Bool
  | Event.call _ _ _ => true
  | Event.deleteInPlace _ => true
  | _ => false

/-- Whether the deleter that `call_deleter` selects for `plugin` accepts it, that is,
whether its `dynamic_cast` succeeds; the in-place `delete` accepts everything. -/
def deleterAccepts (dloader : DLoader) (plugin : iPlugin) : Bool :=
  match dloader.GetSymbol_free with
  | some (_, d) => decide (plugin.cls = d.cls)
  | none =>
    match plugin.GetPluginDeleter with
    | some d => decide (plugin.cls = d.cls)
    | none => true

/-- The loop body of Test/test.cpp for one handle, `h.Load(dlPath); h.Free();`, run
`k` times (the return value of `Load` is ignored there). -/
def loadFreeCycle (w : World) (T : Capability) (dlPath : String) :
    Nat → UniquePlugin → Run UniquePlugin
  | 0, h => Run.ret [] h
  | k + 1, h =>
    (h.Load w T dlPath).andThen fun r =>
      (r.2.Free).andThen fun h1 => loadFreeCycle w T dlPath k h1

/-- How a member access through the handle can end. -/
inductive Access where
  /-- The access is refused (assertion failure, abort) -/
  | failFast
  /-- The pointer `p` is handed to the caller -/
  | returned (p : Option iPlugin)
deriving DecidableEq, Repr

/-- Member access `operator->()` (const and non-const): `return _plugin;`. -/
def UniquePlugin.arrow (self : UniquePlugin) : Access :=
  Access.returned self._plugin

/-- Move constructor `UniquePlugin(UniquePlugin&& rhs)`: returns the constructed handle
and `rhs` afterwards. -/
def UniquePlugin.moveConstruct (rhs : UniquePlugin) : UniquePlugin × UniquePlugin :=
  (⟨(DLoader.moveConstruct rhs._dloader).1, rhs._plugin⟩,
   ⟨(DLoader.moveConstruct rhs._dloader).2, none⟩)

/-- Source `UniquePlugin<T>::Swap(other)` on two distinct handles (`&other != this`):
returns `*this` and `other` afterwards. -/
def UniquePlugin.Swap (self other : UniquePlugin) : UniquePlugin × UniquePlugin :=
  (⟨(DLoader.Swap self._dloader other._dloader).1, other._plugin⟩,
   ⟨(DLoader.Swap self._dloader other._dloader).2, self._plugin⟩)

/-- The handles of one type `UniquePlugin<T>` alive in the program, by index. -/
abbrev Pool := List UniquePlugin

/-- The call `pool[i].Swap(pool[j])`, with the guard `&other != this` of the source:
a handle swapped with itself is left alone. -/
def Pool.Swap (pool : Pool) (i j : Nat) : Pool :=
  if i ≠ j then
    match pool[i]?, pool[j]? with
    | some a, some b => (pool.set i (a.Swap b).1).set j (a.Swap b).2
    | _, _ => pool
  else pool

/-- The operations of the class on the handles of a pool. -/
inductive Op where
  /-- Constructors `UniquePlugin()` / `UniquePlugin(nullptr)`: a new handle -/
  | construct
  /-- Move constructor: a new handle built from `std::move(pool[j])` -/
  | moveConstruct (j : Nat)
  /-- Move assignment `pool[i] = std::move(pool[j])`, which is `pool[i].Swap(pool[j])` -/
  | moveAssign (i j : Nat)
  /-- The call `pool[i].Swap(pool[j])` -/
  | swap (i j : Nat)
  /-- The call `pool[i].Load(dlPath)` -/
  | load (i : Nat) (dlPath : String)
  /-- The call `pool[i].Free()` -/
  | free (i : Nat)
deriving DecidableEq, Repr

/-- One operation on the pool; an index that names no handle leaves the pool alone. -/
def Pool.step (w : World) (T : Capability) (pool : Pool) : Op → Run Pool
  | Op.construct => Run.ret [] (pool ++ [UniquePlugin.empty])
  | Op.moveConstruct j =>
    match pool[j]? with
    | some r => Run.ret [] (pool.set j r.moveConstruct.2 ++ [r.moveConstruct.1])
    | none => Run.ret [] pool
  | Op.moveAssign i j => Run.ret [] (pool.Swap i j)
  | Op.swap i j => Run.ret [] (pool.Swap i j)
  | Op.load i dlPath =>
    match pool[i]? with
    | some h => (h.Load w T dlPath).andThen fun r => Run.ret [] (pool.set i r.2)
    | none => Run.ret [] pool
  | Op.free i =>
    match pool[i]? with
    | some h => h.Free.andThen fun h1 => Run.ret [] (pool.set i h1)
    | none => Run.ret [] pool

/-- A sequence of operations, stopping if the process exits. -/
def Pool.run (w : World) (T : Capability) : Pool → List Op → Run Pool
  | pool, [] => Run.ret [] pool
  | pool, op :: ops => (Pool.step w T pool op).andThen fun p1 => Pool.run w T p1 ops

/-- The handle holds an object if and only if it holds a loaded module. -/
def UniquePlugin.BothOrNeither (h : UniquePlugin) : Prop :=
  h._plugin.isSome = h._dloader._handle.isSome

instance (h : UniquePlugin) : Decidable h.BothOrNeither := by
  unfold UniquePlugin.BothOrNeither
  infer_instance

/-- Move assignment `operator=(UniquePlugin&& rhs)` on two distinct handles:
`this->Swap(rhs); return *this;`. Returns `*this` and `rhs` afterwards. -/
def UniquePlugin.moveAssign (self rhs : UniquePlugin) : UniquePlugin × UniquePlugin :=
  self.Swap rhs

/-- The operations that only pass ownership on: move construction, move assignment and
`Swap`. -/
def Op.isTransfer : Op → Bool
  | Op.moveConstruct _ => true
  | Op.moveAssign _ _ => true
  | Op.swap _ _ => true
  | _ => false

/-- The number of handles of the pool that hold the object `a`. -/
def Pool.holders (pool : Pool) (a : iPlugin) : Nat :=
  pool.countP fun h => decide (h._plugin = some a)

/-- The number of handles of the pool that hold the module `m`. -/
def Pool.owners (pool : Pool) (m : Module) : Nat :=
  pool.countP fun h => decide (h._dloader._handle = some m)

/-! ## `SdlInput` (Plugins/SDLPlugins/SdlInput.cpp) -/

/-- Modelled from the spec: `enum class Key` of iInput.h (not among the sources), the
"16 logical keys (hex 0-F)" in ascending order, followed by `NO_KEY_PRESSED`. -/
inductive Key where
  | KEY_0 | KEY_1 | KEY_2 | KEY_3 | KEY_4 | KEY_5 | KEY_6 | KEY_7
  | KEY_8 | KEY_9 | KEY_A | KEY_B | KEY_C | KEY_D | KEY_E | KEY_F
  | NO_KEY_PRESSED
deriving DecidableEq, Repr

/-- Conversion `utils::toSizeT(key)`: the value of the enumerator. -/
def toSizeT : Key → Nat
  | Key.KEY_0 => 0 | Key.KEY_1 => 1 | Key.KEY_2 => 2 | Key.KEY_3 => 3
  | Key.KEY_4 => 4 | Key.KEY_5 => 5 | Key.KEY_6 => 6 | Key.KEY_7 => 7
  | Key.KEY_8 => 8 | Key.KEY_9 => 9 | Key.KEY_A => 10 | Key.KEY_B => 11
  | Key.KEY_C => 12 | Key.KEY_D => 13 | Key.KEY_E => 14 | Key.KEY_F => 15
  | Key.NO_KEY_PRESSED => 16

/-- An `SDL_Scancode`, by its value in SDL_scancode.h (SDL2). -/
abbrev SDL_Scancode := Nat

/-- Scancode of the Return key. -/
def SDL_SCANCODE_RETURN : SDL_Scancode := 40
/-- Scancode of the Escape key. -/
def SDL_SCANCODE_ESCAPE : SDL_Scancode := 41
/-- Scancode of keypad `/`. -/
def SDL_SCANCODE_KP_DIVIDE : SDL_Scancode := 84
/-- Scancode of keypad `*`. -/
def SDL_SCANCODE_KP_MULTIPLY : SDL_Scancode := 85
/-- Scancode of keypad `-`. -/
def SDL_SCANCODE_KP_MINUS : SDL_Scancode := 86
/-- Scancode of keypad `+`. -/
def SDL_SCANCODE_KP_PLUS : SDL_Scancode := 87
/-- Scancode of keypad Enter. -/
def SDL_SCANCODE_KP_ENTER : SDL_Scancode := 88
/-- Scancode of keypad 1. -/
def SDL_SCANCODE_KP_1 : SDL_Scancode := 89
/-- Scancode of keypad 2. -/
def SDL_SCANCODE_KP_2 : SDL_Scancode := 90
/-- Scancode of keypad 3. -/
def SDL_SCANCODE_KP_3 : SDL_Scancode := 91
/-- Scancode of keypad 4. -/
def SDL_SCANCODE_KP_4 : SDL_Scancode := 92
/-- Scancode of keypad 5. -/
def SDL_SCANCODE_KP_5 : SDL_Scancode := 93
/-- Scancode of keypad 6. -/
def SDL_SCANCODE_KP_6 : SDL_Scancode := 94
/-- Scancode of keypad 7. -/
def SDL_SCANCODE_KP_7 : SDL_Scancode := 95
/-- Scancode of keypad 8. -/
def SDL_SCANCODE_KP_8 : SDL_Scancode := 96
/-- Scancode of keypad 9. -/
def SDL_SCANCODE_KP_9 : SDL_Scancode := 97
/-- Scancode of keypad 0. -/
def SDL_SCANCODE_KP_0 : SDL_Scancode := 98
/-- Scancode of keypad `.`. -/
def SDL_SCANCODE_KP_PERIOD : SDL_Scancode := 99

/-- The array returned by `SDL_GetKeyboardState`, as the list of scancodes whose entry is
non-zero (the keys that are down). -/
abbrev KeyboardState := List SDL_Scancode

/-- The entry `keyboardState[sc]` as a truth value. -/
def KeyboardState.down (kb : KeyboardState) (sc : SDL_Scancode) : Bool :=
  kb.contains sc

/-- The struct `KeyPair`: a logical key and the scancode mapped to it. -/
structure KeyPair where
  chip8Key : Key
  sdlKey : SDL_Scancode
deriving DecidableEq, Repr

/-- A bound callback: the function pointer and the argument registered with it. -/
structure Callback where
  fn : Nat
  arg : Nat
deriving DecidableEq, Repr

/-- The data members of `SdlInput`; a callback that is `none` is a null pointer. -/
structure SdlInput where
  _keyboardState : Option KeyboardState
  _keyPairs : List KeyPair
  _resetClbk : Option Callback
  _escapeClbk : Option Callback
  _waitClbk : Option Callback
  _initialized : Bool
deriving DecidableEq, Repr

/-- What `SdlInput` does to its surroundings, in program order. -/
inductive InputEvent where
  /-- A poll, `SDL_PumpEvents(); SDL_GetKeyboardState(NULL)`, which found the state `kb` -/
  | poll (kb : KeyboardState)
  /-- The call `_resetClbk(_resetClbkArg)` -/
  | resetClbk (c : Callback)
  /-- The call `_escapeClbk(_escapeClbkArg)` -/
  | escapeClbk (c : Callback)
  /-- The call `_waitClbk(_waitClbkArg)` and the value it returned -/
  | waitClbk (c : Callback) (ret : Bool)
deriving DecidableEq, Repr

/-- The events that invoke the reset or the escape callback. -/
def InputEvent.isMetaCallback : InputEvent → Bool
  | InputEvent.resetClbk _ => true
  | InputEvent.escapeClbk _ => true
  | _ => false

/-- The events that are polls. -/
def InputEvent.isPoll : InputEvent → Bool
  | InputEvent.poll _ => true
  | _ => false

/-- The initializer list of `SdlInput::Initialize` (SdlInput.cpp:83-88). -/
def SdlInput.keyTable : List KeyPair :=
  [⟨Key.KEY_0, SDL_SCANCODE_KP_0⟩, ⟨Key.KEY_1, SDL_SCANCODE_KP_7⟩, ⟨Key.KEY_2, SDL_SCANCODE_KP_8⟩,
   ⟨Key.KEY_3, SDL_SCANCODE_KP_9⟩, ⟨Key.KEY_4, SDL_SCANCODE_KP_4⟩, ⟨Key.KEY_5, SDL_SCANCODE_KP_5⟩,
   ⟨Key.KEY_6, SDL_SCANCODE_KP_6⟩, ⟨Key.KEY_7, SDL_SCANCODE_KP_1⟩, ⟨Key.KEY_8, SDL_SCANCODE_KP_2⟩,
   ⟨Key.KEY_9, SDL_SCANCODE_KP_3⟩, ⟨Key.KEY_A, SDL_SCANCODE_KP_DIVIDE⟩,
   ⟨Key.KEY_B, SDL_SCANCODE_KP_MULTIPLY⟩, ⟨Key.KEY_C, SDL_SCANCODE_KP_MINUS⟩,
   ⟨Key.KEY_D, SDL_SCANCODE_KP_PLUS⟩, ⟨Key.KEY_E, SDL_SCANCODE_KP_PERIOD⟩,
   ⟨Key.KEY_F, SDL_SCANCODE_KP_ENTER⟩]

/-- Source `SdlInput::Dispose()`. -/
def SdlInput.Dispose (self : SdlInput) : SdlInput :=
  ⟨none, self._keyPairs, none, none, none, false⟩

/-- Source `SdlInput::Initialize()`. `sdlState` is what `SDL_GetKeyboardState(NULL)`
returns (`none` is null) and `allocOk` whether `_keyPairs.initialize` succeeds. -/
def SdlInput.Initialize (self : SdlInput) (sdlState : Option KeyboardState) (allocOk : Bool) :
    Bool × SdlInput :=
  let s0 := if self._initialized then self.Dispose else self
  let s1 : SdlInput :=
    ⟨sdlState, s0._keyPairs, s0._resetClbk, s0._escapeClbk, s0._waitClbk, s0._initialized⟩
  match sdlState with
  | none => (false, s1)
  | some _ =>
    if s1._keyPairs.isEmpty then
      if allocOk then
        (true, ⟨s1._keyboardState, SdlInput.keyTable, s1._resetClbk, s1._escapeClbk,
          s1._waitClbk, true⟩)
      else
        (false, s1)
    else
      (true, ⟨s1._keyboardState, s1._keyPairs, s1._resetClbk, s1._escapeClbk,
        s1._waitClbk, true⟩)

/-- A freshly constructed `SdlInput` (the default member initializers). -/
def SdlInput.new : SdlInput := ⟨none, [], none, none, none, false⟩

/-- Source `SdlInput::IsKeyPressed(key)` on an initialized object:
`_keyboardState[_keyPairs[toSizeT(key)].sdlKey] == SDL_TRUE`. The result is `none` when
the index is outside `_keyPairs` or `_keyboardState` is null. -/
def SdlInput.IsKeyPressed (self : SdlInput) (key : Key) : Option Bool :=
  match self._keyPairs[toSizeT key]?, self._keyboardState with
  | some pair, some kb => some (kb.down pair.sdlKey)
  | _, _ => none

/-- Source `SdlInput::UpdateKeys()` on an initialized object; `kb` is the keyboard state
found by the poll. Returns the `bool`, the object and the events. -/
def SdlInput.UpdateKeys (self : SdlInput) (kb : KeyboardState) :
    Bool × SdlInput × List InputEvent :=
  if kb.down SDL_SCANCODE_RETURN then
    (false, ⟨some kb, self._keyPairs, self._resetClbk, self._escapeClbk, self._waitClbk,
        self._initialized⟩,
      InputEvent.poll kb ::
        (match self._resetClbk with
          | some c => [InputEvent.resetClbk c]
          | none => []))
  else if kb.down SDL_SCANCODE_ESCAPE then
    (false, ⟨some kb, self._keyPairs, self._resetClbk, self._escapeClbk, self._waitClbk,
        self._initialized⟩,
      InputEvent.poll kb ::
        (match self._escapeClbk with
          | some c => [InputEvent.escapeClbk c]
          | none => []))
  else
    (true, ⟨some kb, self._keyPairs, self._resetClbk, self._escapeClbk, self._waitClbk,
        self._initialized⟩,
      [InputEvent.poll kb])

/-- The `while` loop of `SdlInput::WaitKeyPress()` with the bound predicate `c`. Each
element of `env` is one iteration as the surroundings decide it: what `_waitClbk` returns
and the keyboard state the poll would find. The result is `none` while the loop is still
running when `env` ends. -/
def SdlInput.waitLoop (c : Callback) :
    SdlInput → List (Bool × KeyboardState) → Option Key × SdlInput × List InputEvent
  | self, [] => (none, self, [])
  | self, (true, kb) :: rest =>
    if (self.UpdateKeys kb).1 then
      match (self.UpdateKeys kb).2.1._keyPairs.find? fun p => kb.down p.sdlKey with
      | some p =>
        (some p.chip8Key, (self.UpdateKeys kb).2.1,
          InputEvent.waitClbk c true :: (self.UpdateKeys kb).2.2)
      | none =>
        ((SdlInput.waitLoop c (self.UpdateKeys kb).2.1 rest).1,
         (SdlInput.waitLoop c (self.UpdateKeys kb).2.1 rest).2.1,
         InputEvent.waitClbk c true :: (self.UpdateKeys kb).2.2
           ++ (SdlInput.waitLoop c (self.UpdateKeys kb).2.1 rest).2.2)
    else
      ((SdlInput.waitLoop c (self.UpdateKeys kb).2.1 rest).1,
       (SdlInput.waitLoop c (self.UpdateKeys kb).2.1 rest).2.1,
       InputEvent.waitClbk c true :: (self.UpdateKeys kb).2.2
         ++ (SdlInput.waitLoop c (self.UpdateKeys kb).2.1 rest).2.2)
  | self, (false, _) :: _ =>
    (some Key.NO_KEY_PRESSED, self, [InputEvent.waitClbk c false])

/-- Source `SdlInput::WaitKeyPress()` on an initialized object. -/
def SdlInput.WaitKeyPress (self : SdlInput) (env : List (Bool × KeyboardState)) :
    Option Key × SdlInput × List InputEvent :=
  match self._waitClbk with
  | some c => SdlInput.waitLoop c self env
  | none => (some Key.NO_KEY_PRESSED, self, [])

/-- The events of one iteration of the wait loop: the predicate returned true, one poll,
then the callbacks that poll invoked. -/
def waitIteration (c : Callback) (b : KeyboardState × List InputEvent) : List InputEvent :=
  InputEvent.waitClbk c true :: InputEvent.poll b.1 :: b.2

/-- Whether an iteration with keyboard state `kb` ends the wait of `self`: neither
Return nor Escape is down and some mapped scancode is. -/
def SdlInput.resolves (self : SdlInput) (kb : KeyboardState) : Bool :=
  !kb.down SDL_SCANCODE_RETURN && !kb.down SDL_SCANCODE_ESCAPE
    && self._keyPairs.any fun p => kb.down p.sdlKey

/-- An input object after a successful `Initialize`, with the three callbacks bound. -/
def readyInput : SdlInput :=
  ⟨some [], SdlInput.keyTable, some ⟨1, 10⟩, some ⟨2, 20⟩, some ⟨3, 30⟩, true⟩

/-! ## `utility::Process` (Utility/Process.cpp) -/

/-- What `Process` does to its surroundings, in program order. -/
inductive ProcEvent where
  /-- Message "Sent signal." -/
  | logSentSignal
  /-- Message "Process not found" -/
  | logProcessNotFound
  /-- Message "Could not terminate Emulator process..." -/
  | logCouldNotTerminate
  /-- The call `kill(pid, SIGINT)` -/
  | kill (pid : Int)
  /-- The call `waitpid(pid, &status, 0)` -/
  | waitpid (pid : Int)
  /-- The call `TerminateThread(handle, 0)` and whether it succeeded -/
  | terminateThread (handle : Option Nat) (ok : Bool)
  /-- The call `CloseHandle(handle)` -/
  | closeHandle (handle : Option Nat)
  /-- The call `WaitForSingleObject(handle, INFINITE)` -/
  | waitForSingleObject (handle : Option Nat)
  /-- The call `GetExitCodeThread(handle, &code)` -/
  | getExitCodeThread (handle : Option Nat)
deriving DecidableEq, Repr

/-- The data member of the POSIX `Process`: `pid`, 0 when no child is recorded. -/
structure PosixProcess where
  pid : Int
deriving DecidableEq, Repr

/-- The value of `ESRCH` in errno.h. -/
def ESRCH : Int := 3

/-- How the child waited for ended, as the macros of sys/wait.h read the status word:
`exited s` makes `WIFEXITED` true and `WEXITSTATUS` equal to `s`; a child killed by a
signal makes `WIFEXITED` false. -/
inductive WaitStatus where
  | exited (s : Int)
  | signaled (sig : Nat)
deriving DecidableEq, Repr

/-- Macro `WIFEXITED(status)`. -/
def WIFEXITED : WaitStatus → Bool
  | WaitStatus.exited _ => true
  | WaitStatus.signaled _ => false

/-- Macro `WEXITSTATUS(status)`; it is only read when `WIFEXITED` holds. -/
def WEXITSTATUS : WaitStatus → Int
  | WaitStatus.exited s => s
  | WaitStatus.signaled _ => 0

/-- Source `Process::IsRunning()` (POSIX). -/
def PosixProcess.IsRunning (self : PosixProcess) : Bool :=
  decide (self.pid ≠ 0)

/-- Source `Process::Terminate()` (POSIX); `killRet` is what `kill` returns. -/
def PosixProcess.Terminate (self : PosixProcess) (killRet : Int) :
    PosixProcess × List ProcEvent :=
  if self.pid ≠ 0 then
    (⟨0⟩, [ProcEvent.logSentSignal, ProcEvent.kill self.pid]
            ++ (if killRet = ESRCH then [ProcEvent.logProcessNotFound] else []))
  else
    (self, [])

/-- Source `Process::Join()` (POSIX); `status` is the status word `waitpid` stores. -/
def PosixProcess.Join (self : PosixProcess) (status : WaitStatus) :
    Int × PosixProcess × List ProcEvent :=
  if WIFEXITED status then
    (WEXITSTATUS status, self, [ProcEvent.waitpid self.pid])
  else
    (-1, ⟨0⟩, [ProcEvent.waitpid self.pid])

/-- Source `Process::~Process()` (POSIX). -/
def PosixProcess.destructor (self : PosixProcess) (killRet : Int) :
    PosixProcess × List ProcEvent :=
  if self.IsRunning then self.Terminate killRet else (self, [])

/-- The data members of the Win32 `Process`; `none` is a null `HANDLE`. -/
structure Win32Process where
  _threadHandle : Option Nat
  _threadId : Nat
deriving DecidableEq, Repr

/-- The value of `STILL_ACTIVE` in the Windows headers. -/
def STILL_ACTIVE : Nat := 259

/-- A `DWORD` returned as `int`: the value modulo 2^32, read as two's complement. -/
def dwordToInt (n : Nat) : Int :=
  if n % 2 ^ 32 < 2 ^ 31 then (n % 2 ^ 32 : Nat) else (n % 2 ^ 32 : Nat) - 2 ^ 32

/-- How the thread waited for ended: its function returned `code`, or it was ended from
outside (`TerminateThread`, `ExitProcess`) with exit code `code`. In both cases
`GetExitCodeThread` stores `code`. -/
inductive ThreadEnd where
  | returned (code : Nat)
  | terminated (code : Nat)
deriving DecidableEq, Repr

/-- The value `GetExitCodeThread` stores for an ended thread. -/
def ThreadEnd.exitCode : ThreadEnd → Nat
  | ThreadEnd.returned code => code
  | ThreadEnd.terminated code => code

/-- The call `TerminateThread(handle, 0)`: it fails on a null handle; on a thread handle
the surroundings decide (`ok`). -/
def TerminateThread (handle : Option Nat) (ok : Bool) : Bool :=
  match handle with
  | none => false
  | some _ => ok

/-- Source `Process::Terminate()` (Win32). -/
def Win32Process.Terminate (self : Win32Process) (ok : Bool) :
    Win32Process × List ProcEvent :=
  (⟨none, self._threadId⟩,
    [ProcEvent.terminateThread self._threadHandle (TerminateThread self._threadHandle ok)]
      ++ (if TerminateThread self._threadHandle ok = false then
            [ProcEvent.logCouldNotTerminate] else [])
      ++ [ProcEvent.closeHandle self._threadHandle])

/-- Source `Process::IsRunning()` (Win32); `ret` is the value `GetExitCodeThread`
returns. -/
def Win32Process.IsRunning (self : Win32Process) (ret : Nat) : Bool :=
  match self._threadHandle with
  | some _ => decide (ret = STILL_ACTIVE)
  | none => false

/-- Source `Process::Join()` (Win32); `ended` is how the thread behind the handle ended.
On a null handle `GetExitCodeThread` fails and the code keeps its initial value 0. -/
def Win32Process.Join (self : Win32Process) (ended : ThreadEnd) :
    Int × Win32Process × List ProcEvent :=
  (dwordToInt (match self._threadHandle with
      | some _ => ended.exitCode
      | none => 0),
    ⟨none, self._threadId⟩,
    [ProcEvent.waitForSingleObject self._threadHandle,
     ProcEvent.getExitCodeThread self._threadHandle,
     ProcEvent.closeHandle self._threadHandle])

/-! ## `SdlSound` (Plugins/SDLPlugins/SdlSound.cpp) -/

/-- The data members of `SdlSound` that the functions below read or write. The float
members are rationals: the arithmetic is exact. `_specs` holds `_specs[Have].freq`, the
sample rate of the opened device, and is `none` while the pointer is null. -/
structure SdlSound where
  _specs : Option Int
  _dev : Nat
  _len : ℚ
  _pos : Nat
  _amplitude : Int
  _cycleTime : ℚ
  _curFreq : ℚ
  _playFreq : ℚ
  _initialized : Bool
deriving DecidableEq, Repr

/-- The members written by the functions below. -/
inductive SoundField where
  | cycleTime
  | curFreq
  | playFreq
  | len
  | pos
deriving DecidableEq, Repr

/-- What `SdlSound` does with the audio device and its own members, in program order. -/
inductive SoundEvent where
  /-- The call `SDL_LockAudioDevice(_dev)` -/
  | lockAudioDevice
  /-- The call `SDL_UnlockAudioDevice(_dev)` -/
  | unlockAudioDevice
  /-- A write to a member -/
  | write (f : SoundField)
  /-- The call `SDL_PauseAudioDevice(_dev, pause_on)` -/
  | pauseAudioDevice (pause_on : Bool)
deriving DecidableEq, Repr

/-- Whether every write of a trace happens between a lock and the following unlock;
`held` tells whether the lock is held where the trace starts. -/
def writesLocked : Bool → List SoundEvent → Bool
  | _, [] => true
  | _, SoundEvent.lockAudioDevice :: es => writesLocked true es
  | _, SoundEvent.unlockAudioDevice :: es => writesLocked false es
  | held, SoundEvent.write _ :: es => held && writesLocked held es
  | held, SoundEvent.pauseAudioDevice _ :: es => writesLocked held es

/-- The value `_specs[Have].freq` as a number (read on an initialized object only). -/
def SdlSound.haveFreq (self : SdlSound) : ℚ :=
  match self._specs with
  | some f => (f : ℚ)
  | none => 0

/-- Source `SdlSound::GetCurFreq()`. -/
def SdlSound.GetCurFreq (self : SdlSound) : ℚ :=
  self._curFreq * self.haveFreq

/-- Source `SdlSound::GetPlayFreq()`. -/
def SdlSound.GetPlayFreq (self : SdlSound) : ℚ :=
  self._playFreq * self.haveFreq

/-- Source `SdlSound::SetCurFreq(hz)`. -/
def SdlSound.SetCurFreq (self : SdlSound) (hz : ℚ) : SdlSound :=
  ⟨self._specs, self._dev, self._len, self._pos, self._amplitude, self._cycleTime,
    hz / self.haveFreq, self._playFreq, self._initialized⟩

/-- Source `SdlSound::SetPlayFreq(hz)`. -/
def SdlSound.SetPlayFreq (self : SdlSound) (hz : ℚ) : SdlSound :=
  ⟨self._specs, self._dev, self._len, self._pos, self._amplitude, self._cycleTime,
    self._curFreq, hz / self.haveFreq, self._initialized⟩

/-- Source `SdlSound::SetLenght(len)`. -/
def SdlSound.SetLenght (self : SdlSound) (len : Nat) : SdlSound :=
  ⟨self._specs, self._dev, self._cycleTime * len, self._pos, self._amplitude,
    self._cycleTime, self._curFreq, self._playFreq, self._initialized⟩

/-- Source `SdlSound::GetSoundFreq()`. -/
def SdlSound.GetSoundFreq (self : SdlSound) : ℚ :=
  self.GetCurFreq

/-- Source `SdlSound::GetCountdownFreq()`. -/
def SdlSound.GetCountdownFreq (self : SdlSound) : ℚ :=
  self.haveFreq / self._cycleTime

/-- Source `SdlSound::SetCountdownFreq(hertz)`. -/
def SdlSound.SetCountdownFreq (self : SdlSound) (hertz : ℚ) : SdlSound × List SoundEvent :=
  (⟨self._specs, self._dev, self._len, self._pos, self._amplitude, self.haveFreq / hertz,
     self._curFreq, self._playFreq, self._initialized⟩,
   [SoundEvent.write SoundField.cycleTime])

/-- Source `SdlSound::SetSoundFreq(hz)`. -/
def SdlSound.SetSoundFreq (self : SdlSound) (hz : ℚ) : SdlSound × List SoundEvent :=
  (self.SetCurFreq hz, [SoundEvent.write SoundField.curFreq])

/-- Source `SdlSound::Play(soundTimer)`; `playing` is the value of `IsPlaying()`, that
is, whether the device status is `SDL_AUDIO_PLAYING`. -/
def SdlSound.Play (self : SdlSound) (playing : Bool) (soundTimer : Nat) :
    SdlSound × List SoundEvent :=
  if !playing then
    (((self.SetPlayFreq (self.GetCurFreq + 2 * soundTimer)).SetLenght soundTimer),
      [SoundEvent.write SoundField.playFreq, SoundEvent.write SoundField.len,
       SoundEvent.pauseAudioDevice false])
  else
    (((self.SetPlayFreq (self.GetCurFreq + 2 * soundTimer)).SetLenght soundTimer),
      [SoundEvent.lockAudioDevice,
       SoundEvent.write SoundField.playFreq, SoundEvent.write SoundField.len,
       SoundEvent.unlockAudioDevice,
       SoundEvent.pauseAudioDevice false])

/-- Source `SdlSound::Stop()`. -/
def SdlSound.Stop (self : SdlSound) (playing : Bool) : SdlSound × List SoundEvent :=
  if playing then
    (⟨self._specs, self._dev, 0, self._pos, self._amplitude, self._cycleTime,
       self._curFreq, self._playFreq, self._initialized⟩,
     [SoundEvent.lockAudioDevice, SoundEvent.write SoundField.len,
      SoundEvent.unlockAudioDevice])
  else
    (self, [])

/-- Source `SdlSound::Dispose()`. -/
def SdlSound.Dispose (self : SdlSound) : SdlSound :=
  ⟨none, 0, self._len, self._pos, self._amplitude, self._cycleTime, self._curFreq,
    self._playFreq, false⟩

/-- Source `SdlSound::Initialize()`. `initFailed` is whether `SDL_InitSubSystem` returned
non-zero, `allocOk` whether the two `SDL_AudioSpec` were allocated, `dev` and `haveFreq`
what `SDL_OpenAudioDevice` returned and stored in `have.freq`; `defaultFreq` is the
constant of SdlSound.h. On each failure after the subsystem is up the scope-exit handler
disposes. -/
def SdlSound.Initialize (self : SdlSound) (initFailed allocOk : Bool) (dev : Nat)
    (haveFreq : Int) (defaultFreq : ℚ) : Bool × SdlSound :=
  let s0 := if self._initialized then self.Dispose else self
  if initFailed then (false, s0)
  else if !allocOk then (false, s0.Dispose)
  else if dev < 2 then
    (false, SdlSound.Dispose ⟨some haveFreq, dev, s0._len, s0._pos, s0._amplitude,
      s0._cycleTime, s0._curFreq, s0._playFreq, s0._initialized⟩)
  else
    (true, SdlSound.SetCurFreq
      ⟨some haveFreq, dev, 0, 0, 16000, (haveFreq : ℚ) / 60, s0._curFreq, s0._playFreq,
        true⟩ defaultFreq)

/-- One sample written to the buffer: `static_cast<T>(ampl * std::sin(_2pi * freq * pos))`,
kept as the amplitude, the frequency and the position it is computed from. -/
structure Sample where
  ampl : Int
  freq : ℚ
  pos : Nat
deriving DecidableEq, Repr

/-- The first loop of `audio_callback`: `n` samples with constant amplitude from `pos`. -/
def constSamples (ampl : Int) (freq : ℚ) : Nat → Nat → List Sample
  | _, 0 => []
  | pos, n + 1 => ⟨ampl, freq, pos⟩ :: constSamples ampl freq (pos + 1) n

/-- The second loop of `audio_callback`: `n` samples from `pos`, the amplitude lowered
by 60 after each sample while it is above 100. -/
def rampSamples (freq : ℚ) : Int → Nat → Nat → List Sample
  | _, _, 0 => []
  | downAmpl, pos, n + 1 =>
    ⟨downAmpl, freq, pos⟩ ::
      rampSamples freq (if downAmpl > 100 then downAmpl - 60 else downAmpl) (pos + 1) n

/-- Source `SdlSound::audio_callback<T>` for a buffer of `bufflen` samples: the object
afterwards, the samples written and the device calls. -/
def SdlSound.audio_callback (self : SdlSound) (bufflen : Nat) :
    SdlSound × List Sample × List SoundEvent :=
  if self._len > 0 then
    (⟨self._specs, self._dev, self._len - bufflen, self._pos + bufflen, self._amplitude,
       self._cycleTime, self._curFreq, self._playFreq, self._initialized⟩,
     constSamples self._amplitude self._playFreq self._pos bufflen,
     [])
  else
    (⟨self._specs, self._dev, self._len, 0, self._amplitude, self._cycleTime,
       self._curFreq, self._playFreq, self._initialized⟩,
     rampSamples self._playFreq self._amplitude self._pos bufflen,
     [SoundEvent.pauseAudioDevice true])

/-- The state a successful `Initialize` leaves for a device of 44100 Hz and a default
sound frequency of 350 Hz. -/
def readySound : SdlSound :=
  (SdlSound.Initialize ⟨none, 0, 0, 0, 0, 0, 0, 0, false⟩ false true 2 44100 350).2

/-- The amplitude the second loop of `audio_callback` applies to sample `i` when it
starts from `ampl`: lowered by 60 after each earlier sample whose amplitude was above
100. -/
def rampAmpl : Int → Nat → Int
  | ampl, 0 => ampl
  | ampl, i + 1 => rampAmpl (if ampl > 100 then ampl - 60 else ampl) i

/-- A sound object with remaining length 0 and the amplitude 16000 of `Initialize`, on a
44100 Hz device. -/
def silentSound : SdlSound :=
  ⟨some 44100, 2, 0, 512, 16000, 735, 1 / 126, 37 / 4410, true⟩

/-! ## `SdlRender` (Plugins/SDLPlugins/SdlRender.cpp) -/

/-- Event type `SDL_QUIT` of SDL_events.h (a value of `SDL_Event::type`). -/
def SDL_QUIT : Nat := 0x100
/-- Event type `SDL_WINDOWEVENT` of SDL_events.h (a value of `SDL_Event::type`). -/
def SDL_WINDOWEVENT : Nat := 0x200
/-- Window event id `SDL_WINDOWEVENT_RESIZED` of SDL_video.h (a value of
`SDL_Event::window.event`). -/
def SDL_WINDOWEVENT_RESIZED : Nat := 5
/-- Window event id `SDL_WINDOWEVENT_RESTORED` of SDL_video.h. -/
def SDL_WINDOWEVENT_RESTORED : Nat := 9
/-- Window event id `SDL_WINDOWEVENT_CLOSE` of SDL_video.h. -/
def SDL_WINDOWEVENT_CLOSE : Nat := 14

/-- The fields of `SDL_Event` that matter here: `type`, and `window.event`, which is
meaningful when `type` is `SDL_WINDOWEVENT`. -/
structure SDL_Event where
  type : Nat
  window_event : Nat
deriving DecidableEq, Repr

/-- An event that tells that the window was resized or restored, as SDL delivers it. -/
def SDL_Event.isResizeKind (e : SDL_Event) : Bool :=
  decide (e.type = SDL_WINDOWEVENT)
    && (decide (e.window_event = SDL_WINDOWEVENT_RESIZED)
        || decide (e.window_event = SDL_WINDOWEVENT_RESTORED))

/-- An event that asks to quit or to close the window, as SDL delivers it. -/
def SDL_Event.isCloseKind (e : SDL_Event) : Bool :=
  decide (e.type = SDL_QUIT)
    || (decide (e.type = SDL_WINDOWEVENT) && decide (e.window_event = SDL_WINDOWEVENT_CLOSE))

/-- The data members of `SdlRender`; `none` is a null pointer. -/
structure SdlRender where
  m_window : Option Nat
  m_rend : Option Nat
  m_texture : Option Nat
  m_buffer : Option Nat
  m_closeClbk : Option Callback
  m_resizeClbk : Option Callback
  m_pitch : Int
  m_initialized : Bool
deriving DecidableEq, Repr

/-- What `SdlRender` does to its surroundings, in program order. -/
inductive RenderEvent where
  /-- The call `SDL_PollEvent(&m_sdlevent)` that delivered `e` -/
  | pollEvent (e : SDL_Event)
  /-- The call `m_resizeClbk(m_resizeClbkArg)` -/
  | resizeClbk (c : Callback)
  /-- The call `m_closeClbk(m_closeClbkArg)` -/
  | closeClbk (c : Callback)
  /-- The call `SDL_InitSubSystem(SDL_INIT_VIDEO)` -/
  | initSubSystem
  /-- The call `SDL_QuitSubSystem(SDL_INIT_VIDEO)` -/
  | quitSubSystem
  /-- The call `SDL_CreateWindow` and what it returned -/
  | createWindow (w : Option Nat)
  /-- The call `SDL_CreateRenderer` and what it returned -/
  | createRenderer (r : Option Nat)
  /-- The call `SDL_CreateTexture` and what it returned -/
  | createTexture (t : Option Nat)
  /-- The call `SDL_SetTextureBlendMode(newTexture, SDL_BLENDMODE_BLEND)` -/
  | setTextureBlendMode (t : Option Nat)
  /-- The call `SDL_DestroyTexture` -/
  | destroyTexture (t : Option Nat)
  /-- The call `SDL_DestroyRenderer` -/
  | destroyRenderer (r : Option Nat)
  /-- The call `SDL_DestroyWindow` -/
  | destroyWindow (w : Option Nat)
  /-- A message written with `LogError` or `fprintf(stderr, ...)` -/
  | logError
  /-- The calls `SDL_SetRenderDrawColor; SDL_RenderClear; SDL_RenderPresent` that end
  `Initialize` -/
  | clearAndPresent (r : Option Nat)
deriving DecidableEq, Repr

/-- Source `SdlRender::UpdateEvents()` on an initialized object; `queue` is the pending
event queue of SDL. Returns the `bool`, the events left in the queue and the trace. -/
def SdlRender.UpdateEvents (self : SdlRender) :
    List SDL_Event → Bool × List SDL_Event × List RenderEvent
  | [] => (false, [], [])
  | e :: queue =>
    if e.type = SDL_WINDOWEVENT_RESIZED ∨ e.type = SDL_WINDOWEVENT_RESTORED then
      (true, queue,
        RenderEvent.pollEvent e ::
          (match self.m_resizeClbk with
            | some c => [RenderEvent.resizeClbk c]
            | none => []))
    else if e.type = SDL_QUIT ∨ e.type = SDL_WINDOWEVENT_CLOSE then
      (true, queue,
        RenderEvent.pollEvent e ::
          (match self.m_closeClbk with
            | some c => [RenderEvent.closeClbk c]
            | none => []))
    else
      ((self.UpdateEvents queue).1, (self.UpdateEvents queue).2.1,
        RenderEvent.pollEvent e :: (self.UpdateEvents queue).2.2)

/-- Source `SdlRender::Dispose()`. -/
def SdlRender.Dispose (self : SdlRender) : SdlRender × List RenderEvent :=
  (⟨none, self.m_rend, self.m_texture, none, none, none, self.m_pitch, false⟩,
   [RenderEvent.destroyTexture self.m_texture, RenderEvent.destroyRenderer self.m_rend,
    RenderEvent.destroyWindow self.m_window, RenderEvent.quitSubSystem])

/-- Source `SdlRender::CreateTexture(w, h)`; `newTexture` is what `SDL_CreateTexture`
returns and `blendOk` whether `SDL_SetTextureBlendMode` succeeds. -/
def SdlRender.CreateTexture (self : SdlRender) (newTexture : Option Nat) (blendOk : Bool) :
    Bool × SdlRender × List RenderEvent :=
  match newTexture with
  | none => (false, self, [RenderEvent.createTexture none, RenderEvent.logError])
  | some t =>
    if !blendOk then
      (false, self,
        [RenderEvent.createTexture (some t), RenderEvent.setTextureBlendMode (some t),
         RenderEvent.logError, RenderEvent.destroyTexture (some t)])
    else
      (true,
        ⟨self.m_window, self.m_rend, some t, self.m_buffer, self.m_closeClbk,
          self.m_resizeClbk, self.m_pitch, self.m_initialized⟩,
        [RenderEvent.createTexture (some t), RenderEvent.setTextureBlendMode (some t),
         RenderEvent.destroyTexture self.m_texture])

/-- What SDL answers during one `Initialize`. -/
structure SdlVideo where
  /-- Whether `SDL_InitSubSystem` returns non-zero -/
  initFails : Bool
  /-- What `SDL_CreateWindow` returns -/
  window : Option Nat
  /-- What `SDL_CreateRenderer` returns -/
  rend : Option Nat
  /-- What `SDL_CreateTexture` returns -/
  texture : Option Nat
  /-- Whether `SDL_SetTextureBlendMode` succeeds -/
  blendOk : Bool
deriving DecidableEq, Repr

/-- The scope-exit handler of `Initialize`, run at each return after the subsystem is up:
on an object that is not initialized it logs and disposes. -/
def SdlRender.scopeExit (self : SdlRender) : SdlRender × List RenderEvent :=
  if !self.m_initialized then
    (self.Dispose.1, RenderEvent.logError :: self.Dispose.2)
  else (self, [])

/-- Source `SdlRender::Initialize(winSize, res)`; `resX` is `res.x`. -/
def SdlRender.Initialize (self : SdlRender) (sdl : SdlVideo) (resX : Int) :
    Bool × SdlRender × List RenderEvent :=
  let d := if self.m_initialized then self.Dispose else (self, [])
  if sdl.initFails then
    (false, d.1, d.2 ++ [RenderEvent.initSubSystem, RenderEvent.logError])
  else
    let s1 : SdlRender :=
      ⟨sdl.window, d.1.m_rend, d.1.m_texture, d.1.m_buffer, d.1.m_closeClbk,
        d.1.m_resizeClbk, resX * 4, d.1.m_initialized⟩
    match sdl.window with
    | none =>
      (false, s1.scopeExit.1,
        d.2 ++ [RenderEvent.initSubSystem, RenderEvent.createWindow none] ++ s1.scopeExit.2)
    | some w =>
      let s2 : SdlRender :=
        ⟨s1.m_window, sdl.rend, s1.m_texture, s1.m_buffer, s1.m_closeClbk,
          s1.m_resizeClbk, s1.m_pitch, s1.m_initialized⟩
      match sdl.rend with
      | none =>
        (false, s2.scopeExit.1,
          d.2 ++ [RenderEvent.initSubSystem, RenderEvent.createWindow (some w),
                  RenderEvent.createRenderer none] ++ s2.scopeExit.2)
      | some r =>
        let c := s2.CreateTexture sdl.texture sdl.blendOk
        if !c.1 then
          (false, c.2.1.scopeExit.1,
            d.2 ++ [RenderEvent.initSubSystem, RenderEvent.createWindow (some w),
                    RenderEvent.createRenderer (some r)] ++ c.2.2 ++ c.2.1.scopeExit.2)
        else
          (true,
            ⟨c.2.1.m_window, c.2.1.m_rend, c.2.1.m_texture, c.2.1.m_buffer,
              c.2.1.m_closeClbk, c.2.1.m_resizeClbk, c.2.1.m_pitch, true⟩,
            d.2 ++ [RenderEvent.initSubSystem, RenderEvent.createWindow (some w),
                    RenderEvent.createRenderer (some r)] ++ c.2.2
              ++ [RenderEvent.clearAndPresent (some r)])

/-- A freshly constructed `SdlRender`: null pointers, not initialized. -/
def SdlRender.new : SdlRender := ⟨none, none, none, none, none, none, 0, false⟩

/-- A first `Initialize` in which SDL hands out window 1, renderer 2 and texture 3. -/
def firstVideo : SdlVideo := ⟨false, some 1, some 2, some 3, true⟩

/-- A second `Initialize` in which SDL hands out window 4, renderer 5 and texture 6. -/
def secondVideo : SdlVideo := ⟨false, some 4, some 5, some 6, true⟩

/-- An initialized renderer with both callbacks bound. -/
def readyRender : SdlRender :=
  ⟨some 1, some 2, some 3, none, some ⟨1, 10⟩, some ⟨2, 20⟩, 256, true⟩

/-- Whether the `switch` of `UpdateEvents` has a case for the `type` of `e`. -/
def SDL_Event.hitsSwitch (e : SDL_Event) : Bool :=
  decide (e.type = SDL_WINDOWEVENT_RESIZED) || decide (e.type = SDL_WINDOWEVENT_RESTORED)
    || decide (e.type = SDL_QUIT) || decide (e.type = SDL_WINDOWEVENT_CLOSE)

/-! ## `FillRomPath` (WXChip/MainWindow.cpp) -/

/-- A `std::string`, as the sequence of its chars. -/
abbrev StdString := List Char

/-- The constant `dirSlash` on Apple and Linux. -/
def dirSlashPosix : Char := '/'

/-- The constant `dirSlash` on Win32, the backslash. -/
def dirSlashWin32 : Char := Char.ofNat 92

/-- Source `FillRomPath(dirPath, filename, dest)`: the string stored in `*dest`, or `none`
when `dest->at(slashIdx)` throws `std::out_of_range`. -/
def FillRomPath (dirSlash : Char) (dirPath filename : StdString) : Option StdString :=
  let dest : StdString := [Char.ofNat 34] ++ dirPath
  let slashIdx := dest.length - 1
  match dest[slashIdx]? with
  | none => none
  | some c =>
    some ((if c ≠ dirSlash then dest ++ [dirSlash] else dest) ++ filename ++ [Char.ofNat 34])

/-- Source `FillRomPath(fullPath, dest)`: the string stored in `*dest`. -/
def FillRomPath_fullPath (fullPath : StdString) : StdString :=
  [Char.ofNat 34] ++ fullPath ++ [Char.ofNat 34]

/-! ## `RWrap<T, F>` (Utils/RWrap.h) -/

/-- What the cleanup functor `_f` is applied to. -/
inductive FunctorArg where
  /-- The resource value `_t` -/
  | value (t : Option Nat)
  /-- The address `&_t` of the member, which is never null -/
  | addressOfMember
deriving DecidableEq, Repr

/-- A call `_f(arg)` of the cleanup functor. -/
inductive RWrapEvent where
  | apply (arg : FunctorArg)
deriving DecidableEq, Repr

/-- The data member `_t` of `RWrap<T, F>`, a resource pointer; `none` is null. -/
structure RWrap where
  _t : Option Nat
deriving DecidableEq, Repr

/-- Destructor `RWrap<T, F>::~RWrap()`: `if(_t != nullptr) _f(_t);`. -/
def RWrap.destructor (self : RWrap) : List RWrapEvent :=
  if self._t ≠ none then [RWrapEvent.apply (FunctorArg.value self._t)] else []

/-- Move constructor `RWrap(RWrap&& other)`: returns the new wrapper and `other`. -/
def RWrap.moveConstruct (other : RWrap) : RWrap × RWrap :=
  (⟨other._t⟩, ⟨none⟩)

/-- Source `RWrap<T, F>::operator=(const T other)`: `_f(&_t); _t = other; return _t;`. -/
def RWrap.assign (_self : RWrap) (other : Option Nat) : RWrap × List RWrapEvent :=
  (⟨other⟩, [RWrapEvent.apply FunctorArg.addressOfMember])

/-- The assignment the claim describes: release as the destructor would, then store. -/
def RWrap.assign_asDestructor (self : RWrap) (other : Option Nat) : RWrap × List RWrapEvent :=
  (⟨other⟩, self.destructor)

/-! ## Properties of `call_deleter` -/

theorem call_deleter_destroyed_only (dloader : DLoader) (plugin q : iPlugin)
    (hq : Event.destroyed q ∈ (call_deleter dloader plugin).trace) : q = plugin := by
  unfold call_deleter at hq
  split at hq
  · simp only [Run.andThen, Run.ret, XCHIP_FreePlugin] at hq
    split_ifs at hq <;> simp_all
  · split at hq
    · simp only [Run.andThen, Run.ret, XCHIP_FreePlugin] at hq
      split_ifs at hq <;> simp_all
    · simp_all [Run.ret]

theorem call_deleter_no_unload (dloader : DLoader) (plugin : iPlugin) (m : Module) :
    Event.unload m ∉ (call_deleter dloader plugin).trace := by
  unfold call_deleter
  split
  · simp only [Run.andThen, Run.ret, XCHIP_FreePlugin]
    split_ifs <;> simp
  · split
    · simp only [Run.andThen, Run.ret, XCHIP_FreePlugin]
      split_ifs <;> simp
    · simp [Run.ret]

theorem call_deleter_no_state (dloader : DLoader) (plugin : iPlugin) (s : UniquePlugin) :
    Event.state s ∉ (call_deleter dloader plugin).trace := by
  unfold call_deleter
  split
  · simp only [Run.andThen, Run.ret, XCHIP_FreePlugin]
    split_ifs <;> simp
  · split
    · simp only [Run.andThen, Run.ret, XCHIP_FreePlugin]
      split_ifs <;> simp
    · simp [Run.ret]

theorem call_deleter_count_destroyed (dloader : DLoader) (plugin : iPlugin)
    (hret : (call_deleter dloader plugin).result = some ()) :
    List.count (Event.destroyed plugin) (call_deleter dloader plugin).trace = 1 := by
  unfold call_deleter at hret ⊢
  cases hsym : dloader.GetSymbol_free with
  | some md =>
    obtain ⟨m, d⟩ := md
    simp only [hsym, Run.andThen, Run.ret, XCHIP_FreePlugin] at hret ⊢
    split_ifs at hret ⊢
    simp_all [List.count_cons]
  | none =>
    simp only [hsym] at hret ⊢
    cases hd : plugin.GetPluginDeleter with
    | some d =>
      simp only [hd, Run.andThen, Run.ret, XCHIP_FreePlugin] at hret ⊢
      split_ifs at hret ⊢
      simp_all [List.count_cons]
    | none => simp [Run.ret, List.count_cons]

theorem DLoader.destructor_unload (d : DLoader) (e : Event) (he : e ∈ d.destructor) :
    ∃ m, d._handle = some m ∧ e = Event.unload m := by
  unfold DLoader.destructor DLoader.Free at he
  split at he
  · rename_i m hm
    exact ⟨m, hm, by simpa using he⟩
  · simp at he

/-! ## C1: a failing `Load` leaves the handle alone -/

/-- C1: whenever `Load` returns false (module not opened, factory symbol missing, factory
returned null, or object not of capability `T`), the handle is exactly what it was, none
of its data members was written during the call, the object it held (a `T`, by the type
of `_plugin`) was not destroyed, and the only module unloaded is the one just opened. -/
theorem Load_false_keeps_handle (w : World) (T : Capability) (h h' : UniquePlugin)
    (dlPath : String)
    (htyped : ∀ a, h._plugin = some a → dynamic_cast T a = true)
    (hfalse : (h.Load w T dlPath).result = some (false, h')) :
    h' = h ∧
    (∀ a, h._plugin = some a → Event.destroyed a ∉ (h.Load w T dlPath).trace) ∧
    (∀ s, Event.state s ∉ (h.Load w T dlPath).trace) ∧
    (∀ m, Event.unload m ∈ (h.Load w T dlPath).trace → w.dlopen dlPath = some m) := by
  unfold UniquePlugin.Load at hfalse ⊢
  unfold DLoader.Load at hfalse ⊢
  cases hopen : w.dlopen dlPath with
  | none =>
    simp only [hopen, Run.ret] at hfalse ⊢
    simp at hfalse
    simp [hfalse]
  | some n =>
    simp only [hopen] at hfalse ⊢
    have hdes : ∀ e, e ∈ (DLoader.mk (some n)).destructor → e = Event.unload n := by
      intro e he
      obtain ⟨m, hm, rfl⟩ := DLoader.destructor_unload _ e he
      simp at hm
      rw [hm]
    cases hsym : (DLoader.mk (some n)).GetSymbol_load with
    | none =>
      simp only [hsym, Run.ret] at hfalse ⊢
      simp at hfalse
      refine ⟨hfalse.symm, ?_, ?_, ?_⟩
      · intro a _ hmem
        simp at hmem
        have := hdes _ hmem
        simp at this
      · intro s hmem
        simp at hmem
        have := hdes _ hmem
        simp at this
      · intro m hmem
        simp at hmem
        have := hdes _ hmem
        simp at this
        rw [this]
    | some r =>
      cases r with
      | none =>
        simp only [hsym, Run.ret] at hfalse ⊢
        simp at hfalse
        refine ⟨hfalse.symm, ?_, ?_, ?_⟩
        · intro a _ hmem
          simp at hmem
          have := hdes _ hmem
          simp at this
        · intro s hmem
          simp at hmem
          have := hdes _ hmem
          simp at this
        · intro m hmem
          simp at hmem
          have := hdes _ hmem
          simp at this
          rw [this]
      | some iplug =>
        simp only [hsym] at hfalse ⊢
        by_cases hcast : dynamic_cast T iplug = true
        · simp only [hcast, if_true] at hfalse
          exfalso
          cases hp : h._plugin with
          | none => simp [hp, Run.andThen, Run.ret] at hfalse
          | some a =>
            simp only [hp, Run.andThen, Run.ret] at hfalse
            split at hfalse <;> simp at hfalse
        · simp only [hcast] at hfalse ⊢
          simp only [Run.andThen, Run.ret] at hfalse ⊢
          cases hres : (call_deleter h._dloader iplug).result with
          | none => simp [hres] at hfalse
          | some u =>
            simp only [hres] at hfalse ⊢
            simp at hfalse
            refine ⟨hfalse.symm, ?_, ?_, ?_⟩
            · intro a ha hmem
              simp at hmem
              rcases hmem with hmem | hmem
              · have := call_deleter_destroyed_only _ _ _ hmem
                rw [this] at ha
                exact hcast (htyped _ ha)
              · have := hdes _ hmem
                simp at this
            · intro s hmem
              simp at hmem
              rcases hmem with hmem | hmem
              · exact call_deleter_no_state _ _ _ hmem
              · have := hdes _ hmem
                simp at this
            · intro m hmem
              simp at hmem
              rcases hmem with hmem | hmem
              · exact absurd hmem (call_deleter_no_unload _ _ _)
              · have := hdes _ hmem
                simp at this
                rw [this]

/-- Witness of C1 on an input handle that has loaded `./XChipSDLInput`: a path that cannot
be opened, and (on a handle whose module exports no destroy symbol) a render module whose
object is not an input plugin. -/
theorem Load_false_keeps_handle_witness :
    ((loadedInput.Load testWorld Capability.iInput "./missing").result
        = some (false, loadedInput)
      ∧ Event.destroyed sdlInput
        ∉ (loadedInput.Load testWorld Capability.iInput "./missing").trace)
    ∧ ((loadedBareInput.Load testWorld Capability.iInput "./XChipSDLRender").result
        = some (false, loadedBareInput)
      ∧ Event.destroyed bareInput
        ∉ (loadedBareInput.Load testWorld Capability.iInput "./XChipSDLRender").trace) :=
  ⟨⟨by decide,
    (Load_false_keeps_handle testWorld Capability.iInput loadedInput loadedInput "./missing"
      (by intro a ha; simp [loadedInput] at ha; subst ha; decide) (by decide)).2.1
      sdlInput rfl⟩,
   ⟨by decide,
    (Load_false_keeps_handle testWorld Capability.iInput loadedBareInput loadedBareInput
      "./XChipSDLRender"
      (by intro a ha; simp [loadedBareInput] at ha; subst ha; decide) (by decide)).2.1
      bareInput rfl⟩⟩

/-! ## C2, C3: the mismatched object is handed to the loader of the handle -/

/-- C2: evaluation of `Load` on a plugin of the wrong capability. `call_deleter` is given
the loader of the handle, not the loader that opened the new module: on a handle holding
the input plugin, the destroy symbol of `./XChipSDLInput` is invoked on the `SdlRender`
object; on an empty handle no symbol resolves and the object's own `GetPluginDeleter`
is used. In neither run is the destroy symbol of `./XChipSDLRender` invoked. -/
theorem Load_mismatch_uses_handle_loader :
    (loadedInput.Load testWorld Capability.iInput "./XChipSDLRender").trace
      = [Event.log (LogMsg.castFromIPluginFailed "./XChipSDLRender"),
         Event.call (DeleterSource.moduleSymbol XChipSDLInput) ⟨1⟩ sdlRender,
         Event.log (LogMsg.freePluginCastFailed 1),
         Event.processExit]
    ∧ (UniquePlugin.empty.Load testWorld Capability.iInput "./XChipSDLRender").trace
      = [Event.log (LogMsg.castFromIPluginFailed "./XChipSDLRender"),
         Event.log LogMsg.deleterSymbolMissing,
         Event.call DeleterSource.objectMethod ⟨0⟩ sdlRender,
         Event.destroyed sdlRender,
         Event.unload XChipSDLRender]
    ∧ Event.call (DeleterSource.moduleSymbol XChipSDLRender) ⟨0⟩ sdlRender
        ∉ (loadedInput.Load testWorld Capability.iInput "./XChipSDLRender").trace
    ∧ Event.call (DeleterSource.moduleSymbol XChipSDLRender) ⟨0⟩ sdlRender
        ∉ (UniquePlugin.empty.Load testWorld Capability.iInput "./XChipSDLRender").trace := by
  decide

/-- C3: on an input handle holding the plugin of `./XChipSDLInput`, loading the render
module does not return false: the `XCHIP_FreePlugin` of the input module rejects the
`SdlRender` object and terminates the process; the object is never destroyed and the
new module is never unloaded. -/
theorem Load_mismatch_exits_without_destroying :
    (loadedInput.Load testWorld Capability.iInput "./XChipSDLRender").result = none
    ∧ Event.processExit
        ∈ (loadedInput.Load testWorld Capability.iInput "./XChipSDLRender").trace
    ∧ List.count (Event.destroyed sdlRender)
        (loadedInput.Load testWorld Capability.iInput "./XChipSDLRender").trace = 0
    ∧ Event.unload XChipSDLRender
        ∉ (loadedInput.Load testWorld Capability.iInput "./XChipSDLRender").trace := by
  decide

/-! ## C4: replacing a loaded plugin -/

/-- C4 as stated fails: replacing the input plugin of `./XChipSDLInput` by the one of
`./XChipSDLAndroidInput` succeeds, and between the assignment of `_dloader` and the
assignment of `_plugin` the handle pairs the new module with the old, already destroyed
object. This holds whichever way `DLoader` implements its move assignment. -/
theorem Load_replace_mixed_state :
    (loadedInput.Load testWorld Capability.iInput "./XChipSDLAndroidInput").trace
      = [Event.call (DeleterSource.moduleSymbol XChipSDLInput) ⟨1⟩ sdlInput,
         Event.destroyed sdlInput,
         Event.state ⟨⟨some XChipSDLAndroidInput⟩, some sdlInput⟩,
         Event.state ⟨⟨some XChipSDLAndroidInput⟩, some sdlAndroidInput⟩,
         Event.unload XChipSDLInput]
    ∧ (loadedInput.Load testWorldRelease Capability.iInput "./XChipSDLAndroidInput").trace
      = [Event.call (DeleterSource.moduleSymbol XChipSDLInput) ⟨1⟩ sdlInput,
         Event.destroyed sdlInput,
         Event.unload XChipSDLInput,
         Event.state ⟨⟨some XChipSDLAndroidInput⟩, some sdlInput⟩,
         Event.state ⟨⟨some XChipSDLAndroidInput⟩, some sdlAndroidInput⟩]
    ∧ ¬ (∀ s, Event.state s
            ∈ (loadedInput.Load testWorld Capability.iInput "./XChipSDLAndroidInput").trace →
          ¬ (s._dloader._handle = some XChipSDLAndroidInput ∧ s._plugin = some sdlInput)) := by
  refine ⟨by decide, by decide, ?_⟩
  intro hall
  exact hall ⟨⟨some XChipSDLAndroidInput⟩, some sdlInput⟩ (by decide) ⟨rfl, rfl⟩

/-- C4, amended: on a handle holding object `a` with module `m`, whose deleter accepts
`a`, a `Load` that opens `n` and obtains an object `b` of capability `T` returns true with
the handle holding exactly `(n, b)`. The call first runs `call_deleter` on the loader of
`m` and `a`, which destroys `a` exactly once, before any data member is written and before
any module is unloaded; then the module member is replaced, then the object member, and
`m` is unloaded exactly once, either at the assignment or when the moved-from loader goes
out of scope. The states of the handle during the call are `(n, a)` and then `(n, b)`. -/
theorem Load_replace (w : World) (T : Capability) (m n : Module) (a b : iPlugin)
    (dlPath : String)
    (hopen : w.dlopen dlPath = some n)
    (hsym : n.loadSym = some (some b))
    (hcast : dynamic_cast T b = true)
    (hdel : (call_deleter ⟨some m⟩ a).result = some ()) :
    ((UniquePlugin.mk ⟨some m⟩ (some a)).Load w T dlPath).result
        = some (true, ⟨⟨some n⟩, some b⟩)
    ∧ ((UniquePlugin.mk ⟨some m⟩ (some a)).Load w T dlPath).trace
        = (call_deleter ⟨some m⟩ a).trace
          ++ (if w.moveAssignSwaps then
                [Event.state ⟨⟨some n⟩, some a⟩, Event.state ⟨⟨some n⟩, some b⟩,
                 Event.unload m]
              else
                [Event.unload m, Event.state ⟨⟨some n⟩, some a⟩,
                 Event.state ⟨⟨some n⟩, some b⟩])
    ∧ List.count (Event.destroyed a) (call_deleter ⟨some m⟩ a).trace = 1
    ∧ (∀ q, Event.destroyed q ∈ ((UniquePlugin.mk ⟨some m⟩ (some a)).Load w T dlPath).trace →
        q = a)
    ∧ (∀ m1, Event.unload m1 ∉ (call_deleter ⟨some m⟩ a).trace)
    ∧ (∀ s, Event.state s ∉ (call_deleter ⟨some m⟩ a).trace)
    ∧ List.count (Event.destroyed a)
        ((UniquePlugin.mk ⟨some m⟩ (some a)).Load w T dlPath).trace = 1
    ∧ List.count (Event.unload m)
        ((UniquePlugin.mk ⟨some m⟩ (some a)).Load w T dlPath).trace = 1 := by
  have hcount := call_deleter_count_destroyed ⟨some m⟩ a hdel
  have hnoun : ∀ m1, List.count (Event.unload m1) (call_deleter ⟨some m⟩ a).trace = 0 :=
    fun m1 => List.count_eq_zero.mpr (call_deleter_no_unload _ _ m1)
  have htrace : ((UniquePlugin.mk ⟨some m⟩ (some a)).Load w T dlPath).trace
        = (call_deleter ⟨some m⟩ a).trace
          ++ (if w.moveAssignSwaps then
                [Event.state ⟨⟨some n⟩, some a⟩, Event.state ⟨⟨some n⟩, some b⟩,
                 Event.unload m]
              else
                [Event.unload m, Event.state ⟨⟨some n⟩, some a⟩,
                 Event.state ⟨⟨some n⟩, some b⟩]) := by
    simp only [UniquePlugin.Load, DLoader.Load, hopen, DLoader.GetSymbol_load, hsym, hcast,
      if_true, Run.andThen, hdel, Run.ret, DLoader.moveAssign, DLoader.Swap, DLoader.Free,
      DLoader.destructor]
    cases w.moveAssignSwaps <;> simp
  refine ⟨?_, htrace, hcount, ?_, fun m1 => call_deleter_no_unload _ _ m1,
    fun s => call_deleter_no_state _ _ s, ?_, ?_⟩
  · simp only [UniquePlugin.Load, DLoader.Load, hopen, DLoader.GetSymbol_load, hsym, hcast,
      if_true, Run.andThen, hdel, Run.ret, DLoader.moveAssign, DLoader.Swap, DLoader.Free]
    cases w.moveAssignSwaps <;> simp
  · intro q hq
    rw [htrace] at hq
    rcases List.mem_append.mp hq with hq | hq
    · exact call_deleter_destroyed_only _ _ _ hq
    · cases hsw : w.moveAssignSwaps <;> simp [hsw] at hq
  · rw [htrace, List.count_append, hcount]
    cases w.moveAssignSwaps <;> simp [List.count_cons]
  · rw [htrace, List.count_append, hnoun]
    cases w.moveAssignSwaps <;> simp [List.count_cons]

/-- Witness of the amended C4: the input plugin of `./XChipSDLInput` replaced by the one
of `./XChipSDLAndroidInput`. -/
theorem Load_replace_witness :
    (loadedInput.Load testWorld Capability.iInput "./XChipSDLAndroidInput").result
      = some (true, ⟨⟨some XChipSDLAndroidInput⟩, some sdlAndroidInput⟩) :=
  (Load_replace testWorld Capability.iInput XChipSDLInput XChipSDLAndroidInput sdlInput
    sdlAndroidInput "./XChipSDLAndroidInput" (by decide) (by decide) (by decide)
    (by decide)).1

/-! ## C7, C8: the three tiers of `call_deleter` -/

theorem call_deleter_result (dloader : DLoader) (plugin : iPlugin) :
    (call_deleter dloader plugin).result
      = if deleterAccepts dloader plugin then some () else none := by
  unfold call_deleter deleterAccepts
  cases hsym : dloader.GetSymbol_free with
  | some md =>
    obtain ⟨m, d⟩ := md
    simp only [Run.andThen, Run.ret, XCHIP_FreePlugin]
    split_ifs <;> simp_all
  | none =>
    cases hd : plugin.GetPluginDeleter with
    | some d =>
      simp only [Run.andThen, Run.ret, XCHIP_FreePlugin]
      split_ifs <;> simp_all
    | none => simp [Run.ret]

/-- C7, amended: `call_deleter` invokes exactly one deleter, on the object it was given,
and the deleter is selected in priority order: the destroy symbol of the loader's module
iff it resolves; the function returned by `GetPluginDeleter` iff the symbol does not
resolve and that function is non-null; the in-place `delete` iff neither is available.
No other object is destroyed and the object is destroyed at most once. It is destroyed
exactly once iff the call returns: always on the in-place tier, and on the two function
tiers iff the object is of the concrete class of the invoked `XCHIP_FreePlugin`; handed
an object of another class that function logs its failed cast and exits the process, the
object is destroyed zero times and no lower tier is tried. -/
theorem call_deleter_priority (dloader : DLoader) (plugin : iPlugin) :
    ((call_deleter dloader plugin).trace.filter Event.isDestruction).length = 1
    ∧ (∀ src d q, Event.call src d q ∈ (call_deleter dloader plugin).trace → q = plugin)
    ∧ (∀ q, Event.deleteInPlace q ∈ (call_deleter dloader plugin).trace → q = plugin)
    ∧ (∀ m d, Event.call (DeleterSource.moduleSymbol m) d plugin
          ∈ (call_deleter dloader plugin).trace
        ↔ dloader.GetSymbol_free = some (m, d))
    ∧ (∀ d, Event.call DeleterSource.objectMethod d plugin
          ∈ (call_deleter dloader plugin).trace
        ↔ dloader.GetSymbol_free = none ∧ plugin.GetPluginDeleter = some d)
    ∧ (Event.deleteInPlace plugin ∈ (call_deleter dloader plugin).trace
        ↔ dloader.GetSymbol_free = none ∧ plugin.GetPluginDeleter = none)
    ∧ (∀ q, Event.destroyed q ∈ (call_deleter dloader plugin).trace → q = plugin)
    ∧ List.count (Event.destroyed plugin) (call_deleter dloader plugin).trace ≤ 1
    ∧ (List.count (Event.destroyed plugin) (call_deleter dloader plugin).trace = 1
        ↔ (call_deleter dloader plugin).result = some ())
    ∧ (Event.deleteInPlace plugin ∈ (call_deleter dloader plugin).trace →
        List.count (Event.destroyed plugin) (call_deleter dloader plugin).trace = 1)
    ∧ (∀ src d, Event.call src d plugin ∈ (call_deleter dloader plugin).trace →
        (List.count (Event.destroyed plugin) (call_deleter dloader plugin).trace = 1
          ↔ plugin.cls = d.cls))
    ∧ (∀ src d, Event.call src d plugin ∈ (call_deleter dloader plugin).trace →
        plugin.cls ≠ d.cls →
          List.count (Event.destroyed plugin) (call_deleter dloader plugin).trace = 0
          ∧ (call_deleter dloader plugin).result = none
          ∧ Event.log (LogMsg.freePluginCastFailed d.cls)
              ∈ (call_deleter dloader plugin).trace
          ∧ Event.processExit ∈ (call_deleter dloader plugin).trace
          ∧ Event.deleteInPlace plugin ∉ (call_deleter dloader plugin).trace
          ∧ ((call_deleter dloader plugin).trace.filter Event.isDestruction).length = 1)
    ∧ (Event.processExit ∈ (call_deleter dloader plugin).trace
        ↔ (call_deleter dloader plugin).result = none) := by
  refine ⟨?_, ?_, ?_, ?_, ?_, ?_, call_deleter_destroyed_only dloader plugin, ?_, ?_, ?_, ?_,
    ?_, ?_⟩
  all_goals
    unfold call_deleter
    cases hsym : dloader.GetSymbol_free with
    | some md =>
      obtain ⟨m, d⟩ := md
      simp only [Run.andThen, Run.ret, XCHIP_FreePlugin]
      split_ifs <;> simp_all [Event.isDestruction, List.count_cons] <;>
        first | done | (intros; constructor <;> (intro h; simp [h]))
    | none =>
      cases hd : plugin.GetPluginDeleter with
      | some d =>
        simp only [Run.andThen, Run.ret, XCHIP_FreePlugin]
        split_ifs <;> simp_all [Event.isDestruction, List.count_cons] <;>
        first | done | (intros; constructor <;> (intro h; simp [h]))
      | none => simp_all [Run.ret, Event.isDestruction, List.count_cons]

/-- Witness of the amended C7 on the three tiers: the input module's symbol invoked on the
input object, which it destroys; the object's own deleter on a loader without module; and
the in-place `delete` for an object without deleter. -/
theorem call_deleter_priority_witness :
    List.count (Event.destroyed sdlInput) (call_deleter ⟨some XChipSDLInput⟩ sdlInput).trace = 1
    ∧ (call_deleter ⟨some XChipSDLInput⟩ sdlInput).trace
        = [Event.call (DeleterSource.moduleSymbol XChipSDLInput) ⟨1⟩ sdlInput,
           Event.destroyed sdlInput]
    ∧ (call_deleter ⟨none⟩ sdlInput).trace
        = [Event.log LogMsg.deleterSymbolMissing,
           Event.call DeleterSource.objectMethod ⟨1⟩ sdlInput,
           Event.destroyed sdlInput]
    ∧ (call_deleter ⟨none⟩ ⟨4096, 0, [Capability.iRender], none⟩).trace
        = [Event.log LogMsg.deleterSymbolMissing,
           Event.log LogMsg.getPluginDeleterFailed,
           Event.deleteInPlace ⟨4096, 0, [Capability.iRender], none⟩,
           Event.destroyed ⟨4096, 0, [Capability.iRender], none⟩] :=
  ⟨((call_deleter_priority ⟨some XChipSDLInput⟩ sdlInput).2.2.2.2.2.2.2.2.2.2.1
      (DeleterSource.moduleSymbol XChipSDLInput) ⟨1⟩ (by decide)).mpr rfl,
   by decide, by decide, by decide⟩

/-- C7, counterexample: the call `call_deleter(_dloader, iplug)` that `Load` makes on an
input handle holding `./XChipSDLInput` when asked to load `./XChipSDLRender`. The first
tier is available and is taken: the input module's `XCHIP_FreePlugin` is invoked on the
`SdlRender` object, its cast fails, it logs and exits the process. One deleter was
invoked, yet the object is destroyed zero times. -/
theorem call_deleter_foreign_object_not_destroyed :
    (call_deleter ⟨some XChipSDLInput⟩ sdlRender).trace
        = [Event.call (DeleterSource.moduleSymbol XChipSDLInput) ⟨1⟩ sdlRender,
           Event.log (LogMsg.freePluginCastFailed 1),
           Event.processExit]
    ∧ (call_deleter ⟨some XChipSDLInput⟩ sdlRender).result = none
    ∧ List.count (Event.destroyed sdlRender)
        (call_deleter ⟨some XChipSDLInput⟩ sdlRender).trace = 0
    ∧ (∀ q, Event.destroyed q ∉ (call_deleter ⟨some XChipSDLInput⟩ sdlRender).trace)
    ∧ ((call_deleter ⟨some XChipSDLInput⟩ sdlRender).trace.filter
        Event.isDestruction).length = 1
    ∧ (loadedInput.Load testWorld Capability.iInput "./XChipSDLRender").trace
        = Event.log (LogMsg.castFromIPluginFailed "./XChipSDLRender")
          :: (call_deleter loadedInput._dloader sdlRender).trace
    ∧ loadedInput._dloader = ⟨some XChipSDLInput⟩ := by
  refine ⟨by decide, by decide, by decide, ?_, by decide, by decide, rfl⟩
  intro q hq
  have h := call_deleter_destroyed_only _ _ _ hq
  subst h
  revert hq
  decide

/-- C8: the in-place `delete` is never reached silently: whenever it occurs, both
fallback messages have been logged before it. Each fallback tier logs on entry, with
messages that differ: "Failed to load plugin deleter..." is logged iff the module symbol
did not resolve (before the object's own deleter is invoked), "GetPluginDeleter failed..."
iff moreover the object supplied no deleter. When the module symbol resolves,
`call_deleter` itself logs nothing: its trace is the call followed by what the invoked
`XCHIP_FreePlugin` does. -/
theorem call_deleter_logs (dloader : DLoader) (plugin : iPlugin) :
    (Event.deleteInPlace plugin ∈ (call_deleter dloader plugin).trace →
      ∃ post, (call_deleter dloader plugin).trace
        = [Event.log LogMsg.deleterSymbolMissing, Event.log LogMsg.getPluginDeleterFailed]
          ++ Event.deleteInPlace plugin :: post)
    ∧ (∀ d, Event.call DeleterSource.objectMethod d plugin
          ∈ (call_deleter dloader plugin).trace →
        ∃ post, (call_deleter dloader plugin).trace
          = [Event.log LogMsg.deleterSymbolMissing]
            ++ Event.call DeleterSource.objectMethod d plugin :: post)
    ∧ (Event.log LogMsg.deleterSymbolMissing ∈ (call_deleter dloader plugin).trace
        ↔ dloader.GetSymbol_free = none)
    ∧ (Event.log LogMsg.getPluginDeleterFailed ∈ (call_deleter dloader plugin).trace
        ↔ dloader.GetSymbol_free = none ∧ plugin.GetPluginDeleter = none)
    ∧ LogMsg.deleterSymbolMissing ≠ LogMsg.getPluginDeleterFailed
    ∧ (∀ m d, dloader.GetSymbol_free = some (m, d) →
        (call_deleter dloader plugin).trace
          = Event.call (DeleterSource.moduleSymbol m) d plugin
            :: (XCHIP_FreePlugin d plugin).trace) := by
  refine ⟨?_, ?_, ?_, ?_, by decide, ?_⟩
  all_goals
    unfold call_deleter
    cases hsym : dloader.GetSymbol_free with
    | some md =>
      obtain ⟨m, d⟩ := md
      simp only [Run.andThen, Run.ret, XCHIP_FreePlugin]
      split_ifs <;> simp_all
    | none =>
      cases hd : plugin.GetPluginDeleter with
      | some d =>
        simp only [Run.andThen, Run.ret, XCHIP_FreePlugin]
        split_ifs <;> simp_all
      | none => simp_all [Run.ret]

/-- Witness of C8: the in-place deletion of an object without deleter on a loader
without module is preceded by both messages. -/
theorem call_deleter_logs_witness :
    ∃ post, (call_deleter ⟨none⟩ ⟨4096, 0, [Capability.iRender], none⟩).trace
      = [Event.log LogMsg.deleterSymbolMissing, Event.log LogMsg.getPluginDeleterFailed]
        ++ Event.deleteInPlace ⟨4096, 0, [Capability.iRender], none⟩ :: post :=
  (call_deleter_logs ⟨none⟩ ⟨4096, 0, [Capability.iRender], none⟩).1 (by decide)

/-! ## C6, C5: `Free` -/

theorem Free_trace_of_returns (m : Module) (a : iPlugin)
    (hdel : (call_deleter ⟨some m⟩ a).result = some ()) :
    (UniquePlugin.mk ⟨some m⟩ (some a)).Free
      = ⟨(call_deleter ⟨some m⟩ a).trace
          ++ [Event.state ⟨⟨some m⟩, none⟩, Event.unload m, Event.state UniquePlugin.empty],
         some UniquePlugin.empty⟩ := by
  simp [UniquePlugin.Free, Run.andThen, hdel, Run.ret, DLoader.Free, UniquePlugin.empty]

theorem Free_trace_of_exit (m : Module) (a : iPlugin)
    (hdel : (call_deleter ⟨some m⟩ a).result = none) :
    (UniquePlugin.mk ⟨some m⟩ (some a)).Free = ⟨(call_deleter ⟨some m⟩ a).trace, none⟩ := by
  simp [UniquePlugin.Free, Run.andThen, hdel]

/-- C6: in every execution of `Free` (and of the destructor, which is `Free`) on a handle
holding object `a` and module `m`, an unload of a module is always preceded by the
destruction of `a`, and `m` is unloaded at most once. When the deleter accepts `a`
(the call returns), the trace is that of `call_deleter`, in which `a` is destroyed exactly
once and nothing is unloaded, followed by the clearing of `_plugin`, the unload of `m` and
the cleared loader, so `m` is unloaded exactly once. On a handle without object `Free`
does nothing at all. -/
theorem Free_destroys_before_unload (m : Module) (a : iPlugin) :
    (∀ pre post m1, (UniquePlugin.mk ⟨some m⟩ (some a)).Free.trace
        = pre ++ Event.unload m1 :: post →
        m1 = m ∧ Event.destroyed a ∈ pre ∧ Event.unload m ∉ pre ∧ Event.unload m ∉ post)
    ∧ List.count (Event.unload m) (UniquePlugin.mk ⟨some m⟩ (some a)).Free.trace ≤ 1
    ∧ ((call_deleter ⟨some m⟩ a).result = some () →
        (UniquePlugin.mk ⟨some m⟩ (some a)).Free.trace
          = (call_deleter ⟨some m⟩ a).trace
            ++ [Event.state ⟨⟨some m⟩, none⟩, Event.unload m,
                Event.state UniquePlugin.empty]
        ∧ List.count (Event.destroyed a) (call_deleter ⟨some m⟩ a).trace = 1
        ∧ (∀ m1, Event.unload m1 ∉ (call_deleter ⟨some m⟩ a).trace)
        ∧ List.count (Event.destroyed a) (UniquePlugin.mk ⟨some m⟩ (some a)).Free.trace = 1
        ∧ List.count (Event.unload m) (UniquePlugin.mk ⟨some m⟩ (some a)).Free.trace = 1)
    ∧ (UniquePlugin.mk ⟨some m⟩ (some a)).destructor = (UniquePlugin.mk ⟨some m⟩ (some a)).Free
    ∧ (∀ d : DLoader, (UniquePlugin.mk d none).Free = ⟨[], some ⟨d, none⟩⟩
        ∧ (UniquePlugin.mk d none).destructor = ⟨[], some ⟨d, none⟩⟩) := by
  have hnoun : ∀ m1, List.count (Event.unload m1) (call_deleter ⟨some m⟩ a).trace = 0 :=
    fun m1 => List.count_eq_zero.mpr (call_deleter_no_unload _ _ m1)
  refine ⟨?_, ?_, ?_, rfl, fun d => ⟨rfl, rfl⟩⟩
  · intro pre post m1 heq
    cases hres : (call_deleter ⟨some m⟩ a).result with
    | none =>
      rw [Free_trace_of_exit m a hres] at heq
      have hmem : Event.unload m1 ∈ (call_deleter ⟨some m⟩ a).trace := by
        simp only at heq
        rw [heq]
        simp
      exact absurd hmem (call_deleter_no_unload _ _ m1)
    | some u =>
      have hcount := call_deleter_count_destroyed ⟨some m⟩ a hres
      rw [Free_trace_of_returns m a hres] at heq
      simp only at heq
      have hnot : Event.unload m1 ∉ (call_deleter ⟨some m⟩ a).trace :=
        call_deleter_no_unload _ _ m1
      obtain ⟨as, hpre, hrest⟩ | ⟨bs, htr, hbs⟩ := List.append_eq_append_iff.mp heq
      · -- the unload lies in the tail
        have hdest : Event.destroyed a ∈ (call_deleter ⟨some m⟩ a).trace :=
          List.count_pos_iff.mp (by omega)
        cases as with
        | nil =>
          simp at hrest
        | cons x1 as1 =>
          cases as1 with
          | nil =>
            simp at hrest
            obtain ⟨h1, h2, h3⟩ := hrest
            subst hpre
            refine ⟨h2.symm, by simp [hdest], ?_, ?_⟩
            · simp [call_deleter_no_unload, ← h1]
            · rw [← h3]; simp
          | cons x2 as2 =>
            cases as2 with
            | nil => simp at hrest
            | cons x3 as3 =>
              cases as3 with
              | nil => simp at hrest
              | cons x4 as4 => simp at hrest
      · exfalso
        cases bs with
        | nil => simp at hbs
        | cons b bs1 =>
          simp at hbs
          apply hnot
          rw [htr, ← hbs.1]
          simp
  · cases hres : (call_deleter ⟨some m⟩ a).result with
    | none =>
      rw [Free_trace_of_exit m a hres]
      simp [hnoun]
    | some u =>
      rw [Free_trace_of_returns m a hres]
      simp [List.count_append, hnoun, List.count_cons, UniquePlugin.empty]
  · intro hres
    have hcount := call_deleter_count_destroyed ⟨some m⟩ a hres
    rw [Free_trace_of_returns m a hres]
    refine ⟨rfl, hcount, fun m1 => call_deleter_no_unload _ _ m1, ?_, ?_⟩
    · simp [List.count_append, hcount, List.count_cons]
    · simp [List.count_append, hnoun, List.count_cons, UniquePlugin.empty]

/-- Witness of C6: freeing the input handle that has loaded `./XChipSDLInput`. -/
theorem Free_destroys_before_unload_witness :
    loadedInput.Free.trace
      = [Event.call (DeleterSource.moduleSymbol XChipSDLInput) ⟨1⟩ sdlInput,
         Event.destroyed sdlInput,
         Event.state ⟨⟨some XChipSDLInput⟩, none⟩,
         Event.unload XChipSDLInput,
         Event.state UniquePlugin.empty]
    ∧ List.count (Event.unload XChipSDLInput) loadedInput.Free.trace = 1 :=
  ⟨by decide,
   ((Free_destroys_before_unload XChipSDLInput sdlInput).2.2.1 (by decide)).2.2.2.2⟩

theorem Free_result (h : UniquePlugin)
    (hinv : h._plugin = none → h._dloader._handle = none)
    (hdel : ∀ a, h._plugin = some a → (call_deleter h._dloader a).result = some ()) :
    h.Free.result = some UniquePlugin.empty := by
  obtain ⟨⟨hd⟩, p⟩ := h
  cases p with
  | none =>
    have := hinv rfl
    simp at this
    simp [UniquePlugin.Free, Run.ret, UniquePlugin.empty, this]
  | some a =>
    have hres := hdel a rfl
    simp only at hres
    cases hd with
    | none => simp [UniquePlugin.Free, Run.andThen, hres, Run.ret, DLoader.Free,
        UniquePlugin.empty]
    | some m => simp [UniquePlugin.Free, Run.andThen, hres, Run.ret, DLoader.Free,
        UniquePlugin.empty]

theorem Load_Free_empty (w : World) (T : Capability) (dlPath : String)
    (hw : ∀ n p, w.dlopen dlPath = some n → n.loadSym = some (some p) →
      deleterAccepts ⟨none⟩ p = true ∧ deleterAccepts ⟨some n⟩ p = true) :
    ((UniquePlugin.empty.Load w T dlPath).andThen fun r => r.2.Free).result
      = some UniquePlugin.empty := by
  unfold UniquePlugin.Load DLoader.Load
  cases hopen : w.dlopen dlPath with
  | none => simp [Run.andThen, Run.ret, UniquePlugin.Free, UniquePlugin.empty]
  | some n =>
    simp only [DLoader.GetSymbol_load]
    cases hsym : n.loadSym with
    | none => simp [Run.andThen, Run.ret, UniquePlugin.Free, UniquePlugin.empty]
    | some r =>
      cases r with
      | none => simp [Run.andThen, Run.ret, UniquePlugin.Free, UniquePlugin.empty]
      | some p =>
        obtain ⟨h1, h2⟩ := hw n p hopen hsym
        have hr1 : (call_deleter ⟨none⟩ p).result = some () := by
          rw [call_deleter_result, h1]; rfl
        have hr2 : (call_deleter ⟨some n⟩ p).result = some () := by
          rw [call_deleter_result, h2]; rfl
        by_cases hcast : dynamic_cast T p = true
        · simp only [hcast, if_true, UniquePlugin.empty]
          cases hsw : w.moveAssignSwaps <;>
            simp [Run.andThen, Run.ret, UniquePlugin.Free, DLoader.moveAssign, DLoader.Swap,
              DLoader.Free, hsw, hr2]
        · simp only [hcast, UniquePlugin.empty]
          simp [Run.andThen, Run.ret, UniquePlugin.Free, hr1]

/-- C5: for every handle satisfying the class invariant (no module without object) whose
deleter accepts the held object, `Free` returns and leaves the handle without object and
without module: `operator bool` is false and `get()` is null. A `Load` on the freed
handle is the `Load` on a freshly constructed one, and if every deleter offered for the
object of the module at `dlPath` accepts it, the cycle `Load(dlPath); Free()` of
Test/test.cpp returns to the empty handle after any number `k` of iterations. -/
theorem Free_then_Load (w : World) (T : Capability) (h : UniquePlugin) (dlPath : String)
    (hinv : h._plugin = none → h._dloader._handle = none)
    (hdel : ∀ a, h._plugin = some a → (call_deleter h._dloader a).result = some ()) :
    h.Free.result = some UniquePlugin.empty
    ∧ (∀ h1, h.Free.result = some h1 →
        h1._plugin = none ∧ h1._dloader._handle = none
        ∧ h1.toBool = false ∧ h1.get = none
        ∧ h1.Load w T dlPath = UniquePlugin.empty.Load w T dlPath
        ∧ ((∀ n p, w.dlopen dlPath = some n → n.loadSym = some (some p) →
              deleterAccepts ⟨none⟩ p = true ∧ deleterAccepts ⟨some n⟩ p = true) →
            ∀ k, (loadFreeCycle w T dlPath k h1).result = some UniquePlugin.empty)) := by
  have hfree := Free_result h hinv hdel
  refine ⟨hfree, ?_⟩
  intro h1 hh1
  rw [hfree] at hh1
  simp at hh1
  subst hh1
  refine ⟨rfl, rfl, rfl, rfl, rfl, ?_⟩
  intro hw k
  induction k with
  | zero => rfl
  | succ k ih =>
    have hstep := Load_Free_empty w T dlPath hw
    unfold loadFreeCycle
    simp only [Run.andThen] at hstep ⊢
    cases hl : (UniquePlugin.empty.Load w T dlPath).result with
    | none => simp [hl] at hstep
    | some r =>
      simp only [hl] at hstep ⊢
      simp only [hstep]
      exact ih

/-- Witness of C5: the loaded input handle is freed, and the cycle of the test program
on `./XChipSDLInput` is back at the empty handle after three iterations. -/
theorem Free_then_Load_witness :
    loadedInput.Free.result = some UniquePlugin.empty
    ∧ (loadFreeCycle testWorld Capability.iInput "./XChipSDLInput" 3
        UniquePlugin.empty).result = some UniquePlugin.empty :=
  ⟨(Free_then_Load testWorld Capability.iInput loadedInput "./XChipSDLInput"
      (by decide) (by intro a ha; simp [loadedInput] at ha; subst ha; decide)).1,
   ((Free_then_Load testWorld Capability.iInput loadedInput "./XChipSDLInput"
      (by decide) (by intro a ha; simp [loadedInput] at ha; subst ha; decide)).2
      UniquePlugin.empty (by decide)).2.2.2.2.2
      (by
        intro n p hn hp
        have hn1 : n = XChipSDLInput := by
          have : testWorld.dlopen "./XChipSDLInput" = some XChipSDLInput := by decide
          rw [this] at hn
          exact (Option.some.inj hn).symm
        subst hn1
        have hp1 : p = sdlInput := by
          have : XChipSDLInput.loadSym = some (some sdlInput) := by decide
          rw [this] at hp
          exact (Option.some.inj (Option.some.inj hp)).symm
        subst hp1
        decide)
      3⟩

/-! ## C9: object and module are held together -/

theorem Load_BothOrNeither (w : World) (T : Capability) (h h1 : UniquePlugin)
    (dlPath : String) (b : Bool) (hinv : h.BothOrNeither)
    (hres : (h.Load w T dlPath).result = some (b, h1)) : h1.BothOrNeither := by
  unfold UniquePlugin.Load DLoader.Load at hres
  cases hopen : w.dlopen dlPath with
  | none =>
    simp [hopen, Run.ret] at hres
    rw [← hres.2]; exact hinv
  | some n =>
    simp only [hopen, DLoader.GetSymbol_load] at hres
    cases hsym : n.loadSym with
    | none =>
      simp [hsym, Run.ret] at hres
      rw [← hres.2]; exact hinv
    | some r =>
      cases r with
      | none =>
        simp [hsym, Run.ret] at hres
        rw [← hres.2]; exact hinv
      | some p =>
        simp only [hsym] at hres
        cases hcast : dynamic_cast T p with
        | true =>
          simp only [hcast, if_true, Run.andThen, Run.ret] at hres
          cases hp : h._plugin with
          | none =>
            simp [hp] at hres
            rw [← hres.2]
            cases hsw : w.moveAssignSwaps <;>
              simp [UniquePlugin.BothOrNeither, DLoader.moveAssign, DLoader.Swap, hsw]
          | some a =>
            simp only [hp] at hres
            cases hcd : (call_deleter h._dloader a).result with
            | none => simp [hcd] at hres
            | some u =>
              simp [hcd] at hres
              rw [← hres.2]
              cases hsw : w.moveAssignSwaps <;>
                simp [UniquePlugin.BothOrNeither, DLoader.moveAssign, DLoader.Swap, hsw]
        | false =>
          simp only [hcast, Bool.false_eq_true, if_false, Run.andThen, Run.ret] at hres
          cases hcd : (call_deleter h._dloader p).result with
          | none => simp [hcd] at hres
          | some u =>
            simp [hcd] at hres
            rw [← hres.2]; exact hinv

theorem Free_BothOrNeither (h h1 : UniquePlugin) (hinv : h.BothOrNeither)
    (hres : h.Free.result = some h1) : h1.BothOrNeither := by
  unfold UniquePlugin.Free at hres
  cases hp : h._plugin with
  | none =>
    simp [hp, Run.ret] at hres
    rw [← hres]; exact hinv
  | some a =>
    simp only [hp, Run.andThen, Run.ret] at hres
    cases hcd : (call_deleter h._dloader a).result with
    | none => simp [hcd] at hres
    | some u =>
      simp [hcd] at hres
      rw [← hres]
      unfold UniquePlugin.BothOrNeither DLoader.Free
      cases hh : h._dloader._handle <;> simp [hh]

theorem Swap_BothOrNeither (a b : UniquePlugin) (ha : a.BothOrNeither) (hb : b.BothOrNeither) :
    (a.Swap b).1.BothOrNeither ∧ (a.Swap b).2.BothOrNeither := by
  unfold UniquePlugin.BothOrNeither at *
  simp [UniquePlugin.Swap, DLoader.Swap, ha, hb]

theorem moveConstruct_BothOrNeither (r : UniquePlugin) (hr : r.BothOrNeither) :
    r.moveConstruct.1.BothOrNeither ∧ r.moveConstruct.2.BothOrNeither := by
  unfold UniquePlugin.BothOrNeither at *
  simp [UniquePlugin.moveConstruct, DLoader.moveConstruct, hr]

theorem Pool.swap_keeps_invariant (pool : Pool) (i j : Nat)
    (hinv : ∀ h ∈ pool, h.BothOrNeither) : ∀ h ∈ pool.Swap i j, h.BothOrNeither := by
  unfold Pool.Swap
  split_ifs with hij
  · split
    · rename_i a b ha hb
      have hamem : a ∈ pool := List.getElem?_mem ha
      have hbmem : b ∈ pool := List.getElem?_mem hb
      have hsw := Swap_BothOrNeither a b (hinv a hamem) (hinv b hbmem)
      intro h hh
      rcases List.mem_or_eq_of_mem_set hh with hh | hh
      · rcases List.mem_or_eq_of_mem_set hh with hh | hh
        · exact hinv h hh
        · rw [hh]; exact hsw.1
      · rw [hh]; exact hsw.2
    · exact hinv
  · exact hinv

theorem Pool.step_keeps_invariant (w : World) (T : Capability) (pool p1 : Pool) (op : Op)
    (hinv : ∀ h ∈ pool, h.BothOrNeither)
    (hres : (Pool.step w T pool op).result = some p1) : ∀ h ∈ p1, h.BothOrNeither := by
  cases op with
  | construct =>
    simp [Pool.step, Run.ret] at hres
    subst hres
    intro h hh
    rcases List.mem_append.mp hh with hh | hh
    · exact hinv h hh
    · simp at hh
      rw [hh]
      decide
  | moveConstruct j =>
    simp only [Pool.step] at hres
    split at hres
    · rename_i r hr
      have hrmem : r ∈ pool := List.getElem?_mem hr
      have hmc := moveConstruct_BothOrNeither r (hinv r hrmem)
      simp [Run.ret] at hres
      subst hres
      intro h hh
      rcases List.mem_append.mp hh with hh | hh
      · rcases List.mem_or_eq_of_mem_set hh with hh | hh
        · exact hinv h hh
        · rw [hh]; exact hmc.2
      · simp at hh
        rw [hh]; exact hmc.1
    · simp [Run.ret] at hres
      subst hres
      exact hinv
  | moveAssign i j =>
    simp [Pool.step, Run.ret] at hres
    subst hres
    exact Pool.swap_keeps_invariant pool i j hinv
  | swap i j =>
    simp [Pool.step, Run.ret] at hres
    subst hres
    exact Pool.swap_keeps_invariant pool i j hinv
  | load i dlPath =>
    simp only [Pool.step] at hres
    split at hres
    · rename_i h0 hh0
      have h0mem : h0 ∈ pool := List.getElem?_mem hh0
      simp only [Run.andThen, Run.ret] at hres
      cases hl : (h0.Load w T dlPath).result with
      | none => simp [hl] at hres
      | some r =>
        simp [hl] at hres
        subst hres
        have := Load_BothOrNeither w T h0 r.2 dlPath r.1 (hinv h0 h0mem) (by simp [hl])
        intro h hh
        rcases List.mem_or_eq_of_mem_set hh with hh | hh
        · exact hinv h hh
        · rw [hh]; exact this
    · simp [Run.ret] at hres
      subst hres
      exact hinv
  | free i =>
    simp only [Pool.step] at hres
    split at hres
    · rename_i h0 hh0
      have h0mem : h0 ∈ pool := List.getElem?_mem hh0
      simp only [Run.andThen, Run.ret] at hres
      cases hl : h0.Free.result with
      | none => simp [hl] at hres
      | some r =>
        simp [hl] at hres
        subst hres
        have := Free_BothOrNeither h0 r (hinv h0 h0mem) hl
        intro h hh
        rcases List.mem_or_eq_of_mem_set hh with hh | hh
        · exact hinv h hh
        · rw [hh]; exact this
    · simp [Run.ret] at hres
      subst hres
      exact hinv

theorem Pool.run_keeps_invariant (w : World) (T : Capability) (ops : List Op) :
    ∀ (pool p1 : Pool), (∀ h ∈ pool, h.BothOrNeither) →
      (Pool.run w T pool ops).result = some p1 → ∀ h ∈ p1, h.BothOrNeither := by
  induction ops with
  | nil =>
    intro pool p1 hinv hres
    simp [Pool.run, Run.ret] at hres
    subst hres
    exact hinv
  | cons op ops ih =>
    intro pool p1 hinv hres
    simp only [Pool.run, Run.andThen] at hres
    cases hs : (Pool.step w T pool op).result with
    | none => simp [hs] at hres
    | some p2 =>
      simp only [hs] at hres
      exact ih p2 p1 (Pool.step_keeps_invariant w T pool p2 op hinv hs) hres

/-- C9: starting from any number `k` of default-constructed handles, after every sequence
of constructions, move constructions, move assignments, swaps, loads (successful or
failing) and frees that the process survives, every handle holds an object if and only
if it holds a loaded module. -/
theorem reachable_BothOrNeither (w : World) (T : Capability) (k : Nat) (ops : List Op)
    (pool : Pool)
    (hres : (Pool.run w T (List.replicate k UniquePlugin.empty) ops).result = some pool) :
    ∀ h ∈ pool, h.BothOrNeither ∧ (h._plugin ≠ none ↔ h._dloader._handle ≠ none) := by
  have hstart : ∀ h ∈ List.replicate k UniquePlugin.empty, h.BothOrNeither := by
    intro h hh
    rw [List.eq_of_mem_replicate hh]
    decide
  intro h hh
  have hb := Pool.run_keeps_invariant w T ops _ pool hstart hres h hh
  refine ⟨hb, ?_⟩
  unfold UniquePlugin.BothOrNeither at hb
  cases hp : h._plugin <;> cases hd : h._dloader._handle <;> simp_all

/-- Witness of C9: a run of the test world that constructs three handles, loads, swaps,
moves, fails a load on an empty handle, replaces and frees. -/
theorem reachable_BothOrNeither_witness :
    (Pool.run testWorld Capability.iInput (List.replicate 1 UniquePlugin.empty)
        [Op.load 0 "./XChipSDLInput", Op.construct, Op.swap 0 1, Op.moveConstruct 1,
         Op.load 0 "./XChipSDLRender", Op.load 2 "./XChipSDLAndroidInput",
         Op.moveAssign 0 2, Op.free 1]).result
      = some [⟨⟨some XChipSDLAndroidInput⟩, some sdlAndroidInput⟩, UniquePlugin.empty,
              UniquePlugin.empty]
    ∧ ∀ h ∈ [(⟨⟨some XChipSDLAndroidInput⟩, some sdlAndroidInput⟩ : UniquePlugin),
              UniquePlugin.empty, UniquePlugin.empty],
        h.BothOrNeither ∧ (h._plugin ≠ none ↔ h._dloader._handle ≠ none) :=
  ⟨by decide,
   reachable_BothOrNeither testWorld Capability.iInput 1
     [Op.load 0 "./XChipSDLInput", Op.construct, Op.swap 0 1, Op.moveConstruct 1,
      Op.load 0 "./XChipSDLRender", Op.load 2 "./XChipSDLAndroidInput",
      Op.moveAssign 0 2, Op.free 1]
     _ (by decide)⟩

/-! ## C10: member access on an empty handle -/

/-- C10 as stated fails: `operator->` on the default-constructed handle does not fail; it
hands the null pointer to the caller, exactly as `get()` does. -/
theorem arrow_empty_returns_null :
    UniquePlugin.empty.arrow = Access.returned none
    ∧ UniquePlugin.empty.arrow ≠ Access.failFast
    ∧ UniquePlugin.empty.get = none := by
  decide

/-- C10, amended: `operator->` (const and non-const) and `get()` return the stored pointer
unchecked, for every handle; on a handle without object that pointer is null, and the
handle tells the caller so through `operator bool`, which is true exactly when the
returned pointer is non-null. -/
theorem arrow_returns_stored_pointer (h : UniquePlugin) :
    h.arrow = Access.returned h._plugin
    ∧ h.arrow = Access.returned h.get
    ∧ h.arrow ≠ Access.failFast
    ∧ (h._plugin = none → h.arrow = Access.returned none ∧ h.toBool = false)
    ∧ (h.toBool = true ↔ ∃ p, h.arrow = Access.returned (some p)) := by
  refine ⟨rfl, rfl, ?_, ?_, ?_⟩
  · simp [UniquePlugin.arrow]
  · intro hp
    simp [UniquePlugin.arrow, UniquePlugin.toBool, hp]
  · simp [UniquePlugin.arrow, UniquePlugin.toBool, Option.isSome_iff_exists]

/-- Witness of the amended C10 on the default-constructed handle. -/
theorem arrow_returns_stored_pointer_witness :
    UniquePlugin.empty.arrow = Access.returned none ∧ UniquePlugin.empty.toBool = false :=
  (arrow_returns_stored_pointer UniquePlugin.empty).2.2.2.1 rfl

/-! ## C11: ownership is only ever transferred -/

theorem UniquePlugin.Swap_eq (a b : UniquePlugin) : a.Swap b = (b, a) := rfl

theorem Pool.Swap_of_valid (pool : Pool) (i j : Nat) (a b : UniquePlugin) (hij : i ≠ j)
    (ha : pool[i]? = some a) (hb : pool[j]? = some b) :
    pool.Swap i j = (pool.set i b).set j a := by
  simp [Pool.Swap, hij, ha, hb, UniquePlugin.Swap_eq]

theorem Pool.Swap_of_invalid (pool : Pool) (i j : Nat)
    (h : i = j ∨ pool[i]? = none ∨ pool[j]? = none) : pool.Swap i j = pool := by
  unfold Pool.Swap
  split_ifs with hij
  · rcases h with h | h | h
    · exact absurd h hij
    · simp [h]
    · cases hi : pool[i]? <;> simp [h]
  · rfl

theorem Pool.Swap_Swap (pool : Pool) (i j : Nat) : (pool.Swap i j).Swap i j = pool := by
  by_cases hij : i = j
  · rw [Pool.Swap_of_invalid pool i j (Or.inl hij), Pool.Swap_of_invalid pool i j (Or.inl hij)]
  cases ha : pool[i]? with
  | none =>
    rw [Pool.Swap_of_invalid pool i j (Or.inr (Or.inl ha)),
      Pool.Swap_of_invalid pool i j (Or.inr (Or.inl ha))]
  | some a =>
    cases hb : pool[j]? with
    | none =>
      rw [Pool.Swap_of_invalid pool i j (Or.inr (Or.inr hb)),
        Pool.Swap_of_invalid pool i j (Or.inr (Or.inr hb))]
    | some b =>
      have hi : i < pool.length := (List.getElem?_eq_some_iff.mp ha).1
      have hj : j < pool.length := (List.getElem?_eq_some_iff.mp hb).1
      rw [Pool.Swap_of_valid pool i j a b hij ha hb]
      have h1 : ((pool.set i b).set j a)[i]? = some b := by
        rw [List.getElem?_set_ne (Ne.symm hij)]
        simp [List.getElem?_set, hi]
      have h2 : ((pool.set i b).set j a)[j]? = some a := by
        simp [List.getElem?_set, hj]
      rw [Pool.Swap_of_valid _ i j b a hij h1 h2]
      apply List.ext_getElem?
      intro k
      simp only [List.getElem?_set, List.length_set]
      by_cases hjk : j = k
      · subst hjk
        simp [hj, hb]
      · by_cases hik : i = k
        · subst hik
          simp [hjk, hi, ha]
        · simp [hjk, hik]

theorem Pool.countP_Swap (p : UniquePlugin → Bool) (pool : Pool) (i j : Nat) :
    (pool.Swap i j).countP p = pool.countP p := by
  by_cases hij : i = j
  · rw [Pool.Swap_of_invalid pool i j (Or.inl hij)]
  cases ha : pool[i]? with
  | none => rw [Pool.Swap_of_invalid pool i j (Or.inr (Or.inl ha))]
  | some a =>
    cases hb : pool[j]? with
    | none => rw [Pool.Swap_of_invalid pool i j (Or.inr (Or.inr hb))]
    | some b =>
      obtain ⟨hi, hai⟩ := List.getElem?_eq_some_iff.mp ha
      obtain ⟨hj, hbj⟩ := List.getElem?_eq_some_iff.mp hb
      rw [Pool.Swap_of_valid pool i j a b hij ha hb]
      have hj2 : j < (pool.set i b).length := by simpa using hj
      rw [List.countP_set p _ j a hj2, List.countP_set p pool i b hi]
      have hget : (pool.set i b)[j] = b := by
        rw [List.getElem_set_ne hij]
        exact hbj
      rw [hget, hai]
      have hle := List.boole_getElem_le_countP p pool i hi
      rw [hai] at hle
      omega

theorem Pool.countP_moveConstruct (p : UniquePlugin → Bool) (pool : Pool) (j : Nat)
    (r : UniquePlugin) (hr : pool[j]? = some r) (hp : p UniquePlugin.empty = false) :
    (pool.set j r.moveConstruct.2 ++ [r.moveConstruct.1]).countP p = pool.countP p := by
  obtain ⟨hj, hrj⟩ := List.getElem?_eq_some_iff.mp hr
  have h1 : r.moveConstruct.1 = r := rfl
  have h2 : r.moveConstruct.2 = UniquePlugin.empty := rfl
  rw [h1, h2, List.countP_append, List.countP_set p pool j _ hj, hrj, hp]
  have hle := List.boole_getElem_le_countP p pool j hj
  rw [hrj] at hle
  simp only [List.countP_cons, List.countP_nil]
  split_ifs at hle ⊢ <;> simp_all

theorem Pool.step_transfer (w : World) (T : Capability) (pool : Pool) (op : Op)
    (hop : op.isTransfer = true) (p : UniquePlugin → Bool)
    (hp : p UniquePlugin.empty = false) :
    ∃ p1, Pool.step w T pool op = ⟨[], some p1⟩ ∧ p1.countP p = pool.countP p := by
  cases op with
  | construct => simp [Op.isTransfer] at hop
  | load i dlPath => simp [Op.isTransfer] at hop
  | free i => simp [Op.isTransfer] at hop
  | moveAssign i j => exact ⟨pool.Swap i j, rfl, Pool.countP_Swap p pool i j⟩
  | swap i j => exact ⟨pool.Swap i j, rfl, Pool.countP_Swap p pool i j⟩
  | moveConstruct j =>
    cases hr : pool[j]? with
    | none => exact ⟨pool, by simp [Pool.step, hr, Run.ret], rfl⟩
    | some r =>
      exact ⟨_, by simp only [Pool.step, hr, Run.ret],
        Pool.countP_moveConstruct p pool j r hr hp⟩

theorem Pool.run_transfer (w : World) (T : Capability) (p : UniquePlugin → Bool)
    (hp : p UniquePlugin.empty = false) (ops : List Op) :
    ∀ pool : Pool, (∀ op ∈ ops, op.isTransfer = true) →
      ∃ p1, Pool.run w T pool ops = ⟨[], some p1⟩ ∧ p1.countP p = pool.countP p := by
  induction ops with
  | nil =>
    intro pool _
    exact ⟨pool, rfl, rfl⟩
  | cons op ops ih =>
    intro pool hops
    obtain ⟨p1, hs, hc1⟩ := Pool.step_transfer w T pool op (hops op (by simp)) p hp
    obtain ⟨p2, hr, hc2⟩ := ih p1 (fun o ho => hops o (by simp [ho]))
    refine ⟨p2, ?_, by rw [hc2, hc1]⟩
    simp [Pool.run, Run.andThen, hs, hr]

/-- C11: the move constructor leaves its source empty and gives the new handle exactly
what the source held; `Swap` exchanges the two handles, is undone by a second `Swap` and
leaves a handle swapped with itself alone; move assignment is `Swap`. Consequently every
sequence of move constructions, move assignments and swaps runs to completion without
any event and keeps, for every object and for every module, the number of handles that
hold it: objects and modules held by at most one handle stay so. -/
theorem ownership_only_transferred (w : World) (T : Capability) :
    (∀ r : UniquePlugin, r.moveConstruct = (r, UniquePlugin.empty))
    ∧ (∀ a b : UniquePlugin, a.Swap b = (b, a))
    ∧ (∀ a b : UniquePlugin, (a.Swap b).1.Swap (a.Swap b).2 = (a, b))
    ∧ (∀ (pool : Pool) (i j : Nat), (pool.Swap i j).Swap i j = pool)
    ∧ (∀ (pool : Pool) (i : Nat), pool.Swap i i = pool)
    ∧ (∀ a b : UniquePlugin, a.moveAssign b = a.Swap b)
    ∧ (∀ (pool : Pool) (i j : Nat),
        Pool.step w T pool (Op.moveAssign i j) = Pool.step w T pool (Op.swap i j))
    ∧ (∀ (ops : List Op) (pool : Pool), (∀ op ∈ ops, op.isTransfer = true) →
        ∃ p1, Pool.run w T pool ops = ⟨[], some p1⟩
          ∧ (∀ a, p1.holders a = pool.holders a)
          ∧ (∀ m, p1.owners m = pool.owners m)
          ∧ ((∀ a, pool.holders a ≤ 1) → ∀ a, p1.holders a ≤ 1)
          ∧ ((∀ m, pool.owners m ≤ 1) → ∀ m, p1.owners m ≤ 1)) := by
  refine ⟨fun _ => rfl, fun _ _ => rfl, fun _ _ => rfl, Pool.Swap_Swap,
    fun pool i => Pool.Swap_of_invalid pool i i (Or.inl rfl), fun _ _ => rfl,
    fun _ _ _ => rfl, ?_⟩
  intro ops pool hops
  have hobj : ∀ a : iPlugin, ∃ p1, Pool.run w T pool ops = ⟨[], some p1⟩
      ∧ p1.holders a = pool.holders a := fun a =>
    Pool.run_transfer w T (fun h => decide (h._plugin = some a))
      (by simp [UniquePlugin.empty]) ops pool hops
  have hmod : ∀ m : Module, ∃ p1, Pool.run w T pool ops = ⟨[], some p1⟩
      ∧ p1.owners m = pool.owners m := fun m =>
    Pool.run_transfer w T (fun h => decide (h._dloader._handle = some m))
      (by simp [UniquePlugin.empty]) ops pool hops
  obtain ⟨p1, hrun, _⟩ := Pool.run_transfer w T (fun _ => false) rfl ops pool hops
  have hA : ∀ a, p1.holders a = pool.holders a := by
    intro a
    obtain ⟨p2, hr2, hc⟩ := hobj a
    rw [hrun] at hr2
    simp at hr2
    rw [hr2]
    exact hc
  have hM : ∀ m, p1.owners m = pool.owners m := by
    intro m
    obtain ⟨p2, hr2, hc⟩ := hmod m
    rw [hrun] at hr2
    simp at hr2
    rw [hr2]
    exact hc
  exact ⟨p1, hrun, hA, hM, fun h a => by rw [hA]; exact h a, fun h m => by rw [hM]; exact h m⟩

/-- Witness of C11: the loaded input handle and a second handle holding the Android input
plugin are swapped, moved from and move-assigned; each object and module stays with
exactly one handle. -/
theorem ownership_only_transferred_witness :
    (Pool.run testWorld Capability.iInput
        [loadedInput, ⟨⟨some XChipSDLAndroidInput⟩, some sdlAndroidInput⟩]
        [Op.swap 0 1, Op.moveConstruct 0, Op.moveAssign 1 0, Op.swap 2 2]).result
      = some [loadedInput, UniquePlugin.empty,
              ⟨⟨some XChipSDLAndroidInput⟩, some sdlAndroidInput⟩]
    ∧ ∃ p1, Pool.run testWorld Capability.iInput
          [loadedInput, ⟨⟨some XChipSDLAndroidInput⟩, some sdlAndroidInput⟩]
          [Op.swap 0 1, Op.moveConstruct 0, Op.moveAssign 1 0, Op.swap 2 2] = ⟨[], some p1⟩
        ∧ (∀ a, p1.holders a
            = Pool.holders
                [loadedInput, ⟨⟨some XChipSDLAndroidInput⟩, some sdlAndroidInput⟩] a)
        ∧ (∀ m, p1.owners m
            = Pool.owners
                [loadedInput, ⟨⟨some XChipSDLAndroidInput⟩, some sdlAndroidInput⟩] m) :=
  ⟨by decide,
   match (ownership_only_transferred testWorld Capability.iInput).2.2.2.2.2.2.2
      [Op.swap 0 1, Op.moveConstruct 0, Op.moveAssign 1 0, Op.swap 2 2]
      [loadedInput, ⟨⟨some XChipSDLAndroidInput⟩, some sdlAndroidInput⟩] (by decide) with
   | ⟨p1, h1, h2, h3, _⟩ => ⟨p1, h1, h2, h3⟩⟩

/-! ## C12: `SdlInput::UpdateKeys` -/

/-- C12 as stated fails: with both callbacks bound and both Return and Escape down in
the same poll, `UpdateKeys` invokes the reset callback only; the escape callback is not
invoked although the Escape key is down. -/
theorem UpdateKeys_both_down_skips_escape :
    (readyInput.UpdateKeys [SDL_SCANCODE_RETURN, SDL_SCANCODE_ESCAPE]).2.2
      = [InputEvent.poll [SDL_SCANCODE_RETURN, SDL_SCANCODE_ESCAPE],
         InputEvent.resetClbk ⟨1, 10⟩]
    ∧ KeyboardState.down [SDL_SCANCODE_RETURN, SDL_SCANCODE_ESCAPE] SDL_SCANCODE_ESCAPE = true
    ∧ readyInput._escapeClbk = some ⟨2, 20⟩
    ∧ InputEvent.escapeClbk ⟨2, 20⟩
        ∉ (readyInput.UpdateKeys [SDL_SCANCODE_RETURN, SDL_SCANCODE_ESCAPE]).2.2 := by
  decide

/-- C12, amended: for every keyboard state `UpdateKeys` polls once, first, and stores the
state found. The reset callback is invoked exactly when it is bound and Return is down;
the escape callback exactly when it is bound, Escape is down and Return is not: Return
takes precedence, so at most one callback is invoked per poll. An unbound callback is
skipped. The function returns true exactly when neither key is down. -/
theorem UpdateKeys_meta_conditions (self : SdlInput) (kb : KeyboardState) :
    (∃ cbs, (self.UpdateKeys kb).2.2 = InputEvent.poll kb :: cbs
        ∧ cbs.length ≤ 1 ∧ ∀ e ∈ cbs, e.isMetaCallback = true)
    ∧ (self.UpdateKeys kb).2.1
        = ⟨some kb, self._keyPairs, self._resetClbk, self._escapeClbk, self._waitClbk,
            self._initialized⟩
    ∧ (∀ c, InputEvent.resetClbk c ∈ (self.UpdateKeys kb).2.2
        ↔ self._resetClbk = some c ∧ kb.down SDL_SCANCODE_RETURN = true)
    ∧ (∀ c, InputEvent.escapeClbk c ∈ (self.UpdateKeys kb).2.2
        ↔ self._escapeClbk = some c ∧ kb.down SDL_SCANCODE_ESCAPE = true
            ∧ kb.down SDL_SCANCODE_RETURN = false)
    ∧ ((self.UpdateKeys kb).1 = true
        ↔ kb.down SDL_SCANCODE_RETURN = false ∧ kb.down SDL_SCANCODE_ESCAPE = false) := by
  unfold SdlInput.UpdateKeys
  cases hr : kb.down SDL_SCANCODE_RETURN <;> cases he : kb.down SDL_SCANCODE_ESCAPE <;>
    cases hrc : self._resetClbk <;> cases hec : self._escapeClbk <;>
    simp [InputEvent.isMetaCallback] <;> exact fun c => eq_comm

/-- Witness of the amended C12: only Escape down, both callbacks bound. -/
theorem UpdateKeys_meta_conditions_witness :
    InputEvent.escapeClbk ⟨2, 20⟩ ∈ (readyInput.UpdateKeys [SDL_SCANCODE_ESCAPE]).2.2 :=
  ((UpdateKeys_meta_conditions readyInput [SDL_SCANCODE_ESCAPE]).2.2.2.1 ⟨2, 20⟩).mpr
    (by decide)

/-! ## C15: the key table -/

theorem keyTable_index (i : Nat) (p : KeyPair) (h : SdlInput.keyTable[i]? = some p) :
    toSizeT p.chip8Key = i := by
  have hi : i < 16 := (List.getElem?_eq_some_iff.mp h).1
  interval_cases i <;> simp [SdlInput.keyTable] at h <;> subst h <;> rfl

/-- C15: the table `Initialize` builds has 16 entries, entry `i` carries the logical key
of value `i`, and the scancodes are pairwise distinct. `Initialize` on an object whose
table is empty installs exactly this table. Hence for every logical key other than
`NO_KEY_PRESSED`, `IsKeyPressed` finds its index inside the table, and returns the
keyboard entry of the scancode paired with that key, a scancode no other key has. -/
theorem keyTable_layout :
    SdlInput.keyTable.length = 16
    ∧ (∀ i p, SdlInput.keyTable[i]? = some p → toSizeT p.chip8Key = i)
    ∧ (SdlInput.keyTable.map KeyPair.sdlKey).Nodup
    ∧ (∀ (self : SdlInput) (kb : KeyboardState), self._keyPairs = [] →
        (self.Initialize (some kb) true).1 = true
        ∧ (self.Initialize (some kb) true).2._keyPairs = SdlInput.keyTable
        ∧ (self.Initialize (some kb) true).2._keyboardState = some kb)
    ∧ (∀ (self : SdlInput) (kb : KeyboardState) (key : Key),
        self._keyPairs = SdlInput.keyTable → self._keyboardState = some kb →
        key ≠ Key.NO_KEY_PRESSED →
        toSizeT key < SdlInput.keyTable.length
        ∧ ∃ p, SdlInput.keyTable[toSizeT key]? = some p
          ∧ p.chip8Key = key
          ∧ self.IsKeyPressed key = some (kb.down p.sdlKey)
          ∧ ∀ q ∈ SdlInput.keyTable, q.sdlKey = p.sdlKey → q.chip8Key = key) := by
  refine ⟨rfl, keyTable_index, by decide, ?_, ?_⟩
  · intro self kb hempty
    cases hinit : self._initialized <;>
      simp [SdlInput.Initialize, SdlInput.Dispose, hinit, hempty]
  · intro self kb key htab hkb hkey
    cases key <;> first
      | exact absurd rfl hkey
      | (refine ⟨by decide, ?_⟩
         simp only [SdlInput.IsKeyPressed, htab, hkb, toSizeT]
         exact ⟨_, rfl, rfl, rfl, by decide⟩)

/-- Witness of C15: the object returned by `Initialize` on a new `SdlInput`, with keypad 7
down, reports `KEY_1` pressed and `KEY_7` released. -/
theorem keyTable_layout_witness :
    (SdlInput.new.Initialize (some [SDL_SCANCODE_KP_7]) true).2.IsKeyPressed Key.KEY_1
      = some true
    ∧ (SdlInput.new.Initialize (some [SDL_SCANCODE_KP_7]) true).2.IsKeyPressed Key.KEY_7
      = some false
    ∧ (SdlInput.new.Initialize (some [SDL_SCANCODE_KP_7]) true).2._keyPairs
      = SdlInput.keyTable :=
  ⟨by decide, by decide,
   (keyTable_layout.2.2.2.1 SdlInput.new [SDL_SCANCODE_KP_7] rfl).2.1⟩

/-! ## C13, C14: `SdlInput::WaitKeyPress` -/

theorem InputEvent.not_poll_of_meta (e : InputEvent) (h : e.isMetaCallback = true) :
    e.isPoll = false := by
  cases e <;> simp [InputEvent.isMetaCallback, InputEvent.isPoll] at h ⊢

theorem UpdateKeys_events (self : SdlInput) (kb : KeyboardState) :
    ∃ cbs, (self.UpdateKeys kb).2.2 = InputEvent.poll kb :: cbs
      ∧ (∀ e ∈ cbs, e.isMetaCallback = true)
      ∧ ((self.UpdateKeys kb).1 = true → cbs = []) := by
  unfold SdlInput.UpdateKeys
  cases hr : kb.down SDL_SCANCODE_RETURN <;> cases he : kb.down SDL_SCANCODE_ESCAPE <;>
    cases hrc : self._resetClbk <;> cases hec : self._escapeClbk <;>
    simp [InputEvent.isMetaCallback]

theorem UpdateKeys_state (self : SdlInput) (kb : KeyboardState) :
    (self.UpdateKeys kb).2.1
      = ⟨some kb, self._keyPairs, self._resetClbk, self._escapeClbk, self._waitClbk,
          self._initialized⟩ := by
  unfold SdlInput.UpdateKeys
  split_ifs <;> rfl

theorem UpdateKeys_true_iff (self : SdlInput) (kb : KeyboardState) :
    (self.UpdateKeys kb).1 = true
      ↔ kb.down SDL_SCANCODE_RETURN = false ∧ kb.down SDL_SCANCODE_ESCAPE = false := by
  unfold SdlInput.UpdateKeys
  cases hr : kb.down SDL_SCANCODE_RETURN <;> cases he : kb.down SDL_SCANCODE_ESCAPE <;> simp

theorem waitLoop_blocks (c : Callback) (env : List (Bool × KeyboardState)) :
    ∀ self : SdlInput, ∃ (blocks : List (KeyboardState × List InputEvent))
        (tail : List InputEvent),
      (SdlInput.waitLoop c self env).2.2 = blocks.flatMap (waitIteration c) ++ tail
      ∧ (∀ b ∈ blocks, ∀ e ∈ b.2, e.isMetaCallback = true)
      ∧ (tail = [] ∨ (tail = [InputEvent.waitClbk c false]
          ∧ (SdlInput.waitLoop c self env).1 = some Key.NO_KEY_PRESSED)) := by
  induction env with
  | nil =>
    intro self
    exact ⟨[], [], by simp [SdlInput.waitLoop], by simp, Or.inl rfl⟩
  | cons x rest ih =>
    intro self
    obtain ⟨b, kb⟩ := x
    cases b with
    | false =>
      exact ⟨[], [InputEvent.waitClbk c false], by simp [SdlInput.waitLoop], by simp,
        Or.inr ⟨rfl, by simp [SdlInput.waitLoop]⟩⟩
    | true =>
      obtain ⟨cbs, hev, hcb, _⟩ := UpdateKeys_events self kb
      obtain ⟨blocks, tail, htr, hb, ht⟩ := ih (self.UpdateKeys kb).2.1
      have hcont : ∃ (blocks1 : List (KeyboardState × List InputEvent))
          (tail1 : List InputEvent),
          InputEvent.waitClbk c true :: (self.UpdateKeys kb).2.2
              ++ (SdlInput.waitLoop c (self.UpdateKeys kb).2.1 rest).2.2
            = List.flatMap blocks1 (waitIteration c) ++ tail1
          ∧ (∀ b ∈ blocks1, ∀ e ∈ b.2, e.isMetaCallback = true)
          ∧ (tail1 = [] ∨ (tail1 = [InputEvent.waitClbk c false]
              ∧ (SdlInput.waitLoop c (self.UpdateKeys kb).2.1 rest).1
                = some Key.NO_KEY_PRESSED)) := by
        refine ⟨(kb, cbs) :: blocks, tail, ?_, ?_, ht⟩
        · rw [htr, hev]
          simp [waitIteration]
        · intro b hbm
          rcases List.mem_cons.mp hbm with hbm | hbm
          · rw [hbm]; exact hcb
          · exact hb b hbm
      unfold SdlInput.waitLoop
      split_ifs with hu
      · cases hf : List.find? (fun p => kb.down p.sdlKey)
            (self.UpdateKeys kb).2.1._keyPairs with
        | some p =>
          refine ⟨[(kb, cbs)], [], ?_, ?_, Or.inl rfl⟩
          · simp [waitIteration, hev]
          · intro b hbm
            simp at hbm
            rw [hbm]; exact hcb
        | none => exact hcont
      · exact hcont

/-- C13: with no predicate bound `WaitKeyPress` returns `NO_KEY_PRESSED` at once, without
any poll. With the predicate `c` bound, its events are a sequence of iterations, each
being one evaluation of the predicate that returned true, then exactly one poll, then the
callbacks of that poll; the sequence is followed by nothing (a key resolved the wait, or
the loop is still running) or by a single evaluation that returned false, after which
nothing happens and `NO_KEY_PRESSED` is returned. So every poll is immediately preceded
by an evaluation of the predicate. Whenever the predicate returns false after `n`
iterations that did not resolve the wait, the function returns `NO_KEY_PRESSED` after
exactly `n` polls, whatever the surroundings would have offered later. -/
theorem WaitKeyPress_paced (self : SdlInput) (env : List (Bool × KeyboardState)) :
    (self._waitClbk = none →
      self.WaitKeyPress env = (some Key.NO_KEY_PRESSED, self, []))
    ∧ (∀ c, self._waitClbk = some c →
        ∃ (blocks : List (KeyboardState × List InputEvent)) (tail : List InputEvent),
          (self.WaitKeyPress env).2.2 = blocks.flatMap (waitIteration c) ++ tail
          ∧ (∀ b ∈ blocks, ∀ e ∈ b.2, e.isMetaCallback = true)
          ∧ (tail = [] ∨ (tail = [InputEvent.waitClbk c false]
              ∧ (self.WaitKeyPress env).1 = some Key.NO_KEY_PRESSED)))
    ∧ (∀ c pre kb rest, self._waitClbk = some c →
        (∀ e ∈ pre, e.1 = true ∧ self.resolves e.2 = false) →
        (self.WaitKeyPress (pre ++ (false, kb) :: rest)).1 = some Key.NO_KEY_PRESSED
        ∧ ((self.WaitKeyPress (pre ++ (false, kb) :: rest)).2.2.filter
            InputEvent.isPoll).length = pre.length
        ∧ (self.WaitKeyPress (pre ++ (false, kb) :: rest)).2.2.getLast?
            = some (InputEvent.waitClbk c false)) := by
  refine ⟨?_, ?_, ?_⟩
  · intro h
    simp [SdlInput.WaitKeyPress, h]
  · intro c h
    simp only [SdlInput.WaitKeyPress, h]
    exact waitLoop_blocks c env self
  · intro c pre kb rest h hpre
    simp only [SdlInput.WaitKeyPress, h]
    clear h
    induction pre generalizing self with
    | nil => simp [SdlInput.waitLoop, InputEvent.isPoll]
    | cons x pre ih =>
      obtain ⟨b, kb0⟩ := x
      have hx := hpre (b, kb0) (by simp)
      simp only at hx
      obtain ⟨hb, hres⟩ := hx
      subst hb
      obtain ⟨cbs, hev, hcb, _⟩ := UpdateKeys_events self kb0
      have hst := UpdateKeys_state self kb0
      have hkp : (self.UpdateKeys kb0).2.1._keyPairs = self._keyPairs := by rw [hst]
      have hih := ih (self.UpdateKeys kb0).2.1 (by
        intro e he
        have := hpre e (by simp [he])
        refine ⟨this.1, ?_⟩
        simpa [SdlInput.resolves, hkp] using this.2)
      have hfilter : List.filter InputEvent.isPoll cbs = [] := by
        rw [List.filter_eq_nil_iff]
        intro e he
        simp [InputEvent.not_poll_of_meta e (hcb e he)]
      have hcont :
          (SdlInput.waitLoop c (self.UpdateKeys kb0).2.1 (pre ++ (false, kb) :: rest)).1
            = some Key.NO_KEY_PRESSED
          ∧ ((InputEvent.waitClbk c true :: (self.UpdateKeys kb0).2.2
              ++ (SdlInput.waitLoop c (self.UpdateKeys kb0).2.1
                  (pre ++ (false, kb) :: rest)).2.2).filter InputEvent.isPoll).length
            = (pre.length + 1)
          ∧ (InputEvent.waitClbk c true :: (self.UpdateKeys kb0).2.2
              ++ (SdlInput.waitLoop c (self.UpdateKeys kb0).2.1
                  (pre ++ (false, kb) :: rest)).2.2).getLast?
            = some (InputEvent.waitClbk c false) := by
        obtain ⟨h1, h2, h3⟩ := hih
        refine ⟨h1, ?_, ?_⟩
        · rw [hev]
          simp [List.filter_cons, InputEvent.isPoll, hfilter, h2]
        · rw [List.cons_append, List.getLast?_cons, List.getLast?_append, h3]
          simp
      simp only [List.cons_append, SdlInput.waitLoop, List.length_cons]
      split_ifs with hu
      · have hnone : List.find? (fun p => kb0.down p.sdlKey)
            (self.UpdateKeys kb0).2.1._keyPairs = none := by
          rw [hkp, List.find?_eq_none]
          intro p hp hdown
          have hu2 := (UpdateKeys_true_iff self kb0).mp hu
          simp only [SdlInput.resolves, hu2.1, hu2.2, Bool.not_false, Bool.true_and,
            List.any_eq_false] at hres
          exact hres p hp hdown
        simp only [hnone]
        exact hcont
      · exact hcont

/-- Witness of C13: two iterations that do not resolve the wait (no key; Return with
keypad 7), then the predicate returns false although keypad 7 and 8 would be down. -/
theorem WaitKeyPress_paced_witness :
    (readyInput.WaitKeyPress
        [(true, []), (true, [SDL_SCANCODE_RETURN, SDL_SCANCODE_KP_7]),
         (false, [SDL_SCANCODE_KP_8, SDL_SCANCODE_KP_7]), (true, [])]).1
      = some Key.NO_KEY_PRESSED
    ∧ (readyInput.WaitKeyPress
        [(true, []), (true, [SDL_SCANCODE_RETURN, SDL_SCANCODE_KP_7]),
         (false, [SDL_SCANCODE_KP_8, SDL_SCANCODE_KP_7]), (true, [])]).2.2
      = [InputEvent.waitClbk ⟨3, 30⟩ true, InputEvent.poll [],
         InputEvent.waitClbk ⟨3, 30⟩ true,
         InputEvent.poll [SDL_SCANCODE_RETURN, SDL_SCANCODE_KP_7],
         InputEvent.resetClbk ⟨1, 10⟩,
         InputEvent.waitClbk ⟨3, 30⟩ false] :=
  ⟨((WaitKeyPress_paced readyInput []).2.2 ⟨3, 30⟩
      [(true, []), (true, [SDL_SCANCODE_RETURN, SDL_SCANCODE_KP_7])]
      [SDL_SCANCODE_KP_8, SDL_SCANCODE_KP_7] [(true, [])] rfl (by decide)).1,
   by decide⟩

theorem keyTable_find_first (kb : KeyboardState) (p : KeyPair)
    (h : SdlInput.keyTable.find? (fun q => kb.down q.sdlKey) = some p) :
    SdlInput.keyTable[toSizeT p.chip8Key]? = some p
    ∧ kb.down p.sdlKey = true
    ∧ ∀ j q, j < toSizeT p.chip8Key → SdlInput.keyTable[j]? = some q →
        kb.down q.sdlKey = false := by
  obtain ⟨hp, as, bs, hsplit, has⟩ := List.find?_eq_some.mp h
  have hget : SdlInput.keyTable[as.length]? = some p := by
    rw [hsplit, List.getElem?_append_right (Nat.le_refl _)]
    simp
  have hidx := keyTable_index as.length p hget
  refine ⟨by rw [hidx]; exact hget, hp, ?_⟩
  intro j q hj hq
  rw [hidx] at hj
  rw [hsplit, List.getElem?_append_left hj] at hq
  have := has q (List.getElem?_mem hq)
  simpa using this

theorem keyTable_no_NO_KEY (p : KeyPair) (hp : p ∈ SdlInput.keyTable) :
    p.chip8Key ≠ Key.NO_KEY_PRESSED := by
  revert p
  decide

theorem waitLoop_result (c : Callback) (env : List (Bool × KeyboardState)) :
    ∀ self : SdlInput, self._keyPairs = SdlInput.keyTable →
      ((SdlInput.waitLoop c self env).1 = some Key.NO_KEY_PRESSED
        ↔ InputEvent.waitClbk c false ∈ (SdlInput.waitLoop c self env).2.2)
      ∧ (∀ K, (SdlInput.waitLoop c self env).1 = some K → K ≠ Key.NO_KEY_PRESSED →
          ∃ (pre : List InputEvent) (kb : KeyboardState) (p : KeyPair),
            (SdlInput.waitLoop c self env).2.2
              = pre ++ [InputEvent.waitClbk c true, InputEvent.poll kb]
            ∧ (SdlInput.waitLoop c self env).2.1._keyboardState = some kb
            ∧ kb.down SDL_SCANCODE_RETURN = false
            ∧ kb.down SDL_SCANCODE_ESCAPE = false
            ∧ SdlInput.keyTable.find? (fun q => kb.down q.sdlKey) = some p
            ∧ p.chip8Key = K) := by
  induction env with
  | nil =>
    intro self _
    simp [SdlInput.waitLoop]
  | cons x rest ih =>
    intro self htab
    obtain ⟨b, kb⟩ := x
    cases b with
    | false => simp [SdlInput.waitLoop]
    | true =>
      obtain ⟨cbs, hev, hcb, hnil⟩ := UpdateKeys_events self kb
      have hst := UpdateKeys_state self kb
      have hkp : (self.UpdateKeys kb).2.1._keyPairs = SdlInput.keyTable := by
        rw [hst]; exact htab
      obtain ⟨ih1, ih2⟩ := ih (self.UpdateKeys kb).2.1 hkp
      have hnotin : InputEvent.waitClbk c false ∉ cbs := by
        intro hmem
        have := hcb _ hmem
        simp [InputEvent.isMetaCallback] at this
      have hcont :
          ((SdlInput.waitLoop c (self.UpdateKeys kb).2.1 rest).1 = some Key.NO_KEY_PRESSED
            ↔ InputEvent.waitClbk c false
                ∈ InputEvent.waitClbk c true :: (self.UpdateKeys kb).2.2
                  ++ (SdlInput.waitLoop c (self.UpdateKeys kb).2.1 rest).2.2)
          ∧ (∀ K, (SdlInput.waitLoop c (self.UpdateKeys kb).2.1 rest).1 = some K →
              K ≠ Key.NO_KEY_PRESSED →
              ∃ (pre : List InputEvent) (kb1 : KeyboardState) (p : KeyPair),
                InputEvent.waitClbk c true :: (self.UpdateKeys kb).2.2
                    ++ (SdlInput.waitLoop c (self.UpdateKeys kb).2.1 rest).2.2
                  = pre ++ [InputEvent.waitClbk c true, InputEvent.poll kb1]
                ∧ (SdlInput.waitLoop c (self.UpdateKeys kb).2.1 rest).2.1._keyboardState
                  = some kb1
                ∧ kb1.down SDL_SCANCODE_RETURN = false
                ∧ kb1.down SDL_SCANCODE_ESCAPE = false
                ∧ SdlInput.keyTable.find? (fun q => kb1.down q.sdlKey) = some p
                ∧ p.chip8Key = K) := by
        refine ⟨?_, ?_⟩
        · rw [ih1, hev]
          simp [hnotin]
        · intro K hK hne
          obtain ⟨pre, kb1, p, h1, h2, h3, h4, h5, h6⟩ := ih2 K hK hne
          refine ⟨InputEvent.waitClbk c true :: (self.UpdateKeys kb).2.2 ++ pre, kb1, p,
            ?_, h2, h3, h4, h5, h6⟩
          rw [h1]
          simp
      unfold SdlInput.waitLoop
      split_ifs with hu
      · cases hf : List.find? (fun p => kb.down p.sdlKey)
            (self.UpdateKeys kb).2.1._keyPairs with
        | none => exact hcont
        | some p =>
          have hu2 := (UpdateKeys_true_iff self kb).mp hu
          have hcbs := hnil hu
          rw [hkp] at hf
          have hpne := keyTable_no_NO_KEY p (List.mem_of_find?_eq_some hf)
          refine ⟨?_, ?_⟩
          · simp [hev, hcbs, hpne]
          · intro K hK _
            simp only [Option.some.injEq] at hK
            refine ⟨[], kb, p, ?_, ?_, hu2.1, hu2.2, hf, hK⟩
            · simp [hev, hcbs]
            · simp only []
              rw [hst]
      · exact hcont

theorem waitLoop_resolves (c : Callback) (kb : KeyboardState)
    (rest : List (Bool × KeyboardState)) (pre : List (Bool × KeyboardState)) :
    ∀ self : SdlInput, self._keyPairs = SdlInput.keyTable →
      (∀ e ∈ pre, e.1 = true ∧ self.resolves e.2 = false) → self.resolves kb = true →
      ∃ K, (SdlInput.waitLoop c self (pre ++ (true, kb) :: rest)).1 = some K
        ∧ K ≠ Key.NO_KEY_PRESSED := by
  induction pre with
  | nil =>
    intro self htab _ hres
    have hst := UpdateKeys_state self kb
    have hkp : (self.UpdateKeys kb).2.1._keyPairs = SdlInput.keyTable := by
      rw [hst]; exact htab
    simp only [SdlInput.resolves, Bool.and_eq_true, Bool.not_eq_true', List.any_eq_true]
      at hres
    obtain ⟨⟨hr, he⟩, q, hq, hdown⟩ := hres
    have hu : (self.UpdateKeys kb).1 = true := (UpdateKeys_true_iff self kb).mpr ⟨hr, he⟩
    rw [htab] at hq
    cases hf : List.find? (fun p => kb.down p.sdlKey) SdlInput.keyTable with
    | none =>
      rw [List.find?_eq_none] at hf
      exact absurd hdown (hf q hq)
    | some p =>
      refine ⟨p.chip8Key, ?_, keyTable_no_NO_KEY p (List.mem_of_find?_eq_some hf)⟩
      simp [SdlInput.waitLoop, hu, hkp, hf]
  | cons x pre ih =>
    intro self htab hpre hres
    obtain ⟨b, kb0⟩ := x
    have hx := hpre (b, kb0) (by simp)
    simp only at hx
    obtain ⟨hb, hres0⟩ := hx
    subst hb
    have hst := UpdateKeys_state self kb0
    have hkp : (self.UpdateKeys kb0).2.1._keyPairs = SdlInput.keyTable := by
      rw [hst]; exact htab
    have hkp2 : (self.UpdateKeys kb0).2.1._keyPairs = self._keyPairs := by rw [hst]
    obtain ⟨K, hK, hne⟩ := ih (self.UpdateKeys kb0).2.1 hkp
      (by
        intro e he
        have := hpre e (by simp [he])
        refine ⟨this.1, ?_⟩
        simpa [SdlInput.resolves, hkp2] using this.2)
      (by simpa [SdlInput.resolves, hkp2] using hres)
    refine ⟨K, ?_, hne⟩
    simp only [List.cons_append, SdlInput.waitLoop]
    split_ifs with hu
    · have hnone : List.find? (fun p => kb0.down p.sdlKey)
          (self.UpdateKeys kb0).2.1._keyPairs = none := by
        rw [hkp2, List.find?_eq_none]
        intro p hp hdown
        have hu2 := (UpdateKeys_true_iff self kb0).mp hu
        simp only [SdlInput.resolves, hu2.1, hu2.2, Bool.not_false, Bool.true_and,
          List.any_eq_false] at hres0
        exact hres0 p hp hdown
      simp only [hnone]
      exact hK
    · exact hK

/-- C14: on an object holding the key table of `Initialize`, `WaitKeyPress` returns
`NO_KEY_PRESSED` exactly when no predicate is bound or an evaluation of the predicate
returned false. Any other key `K` it returns is one of the 16 logical keys; the events
then end with an evaluation that returned true and a poll whose state `kb` is the one
the object keeps; in `kb` neither Return nor Escape is down, the scancode mapped to `K`
is down, and no key before `K` in the order `KEY_0..KEY_F` has its scancode down. An
iteration whose poll finds a mapped key down, and neither Return nor Escape, does end
the wait with such a key. -/
theorem WaitKeyPress_result (self : SdlInput) (env : List (Bool × KeyboardState))
    (htab : self._keyPairs = SdlInput.keyTable) :
    ((self.WaitKeyPress env).1 = some Key.NO_KEY_PRESSED
      ↔ self._waitClbk = none
        ∨ ∃ c, self._waitClbk = some c
            ∧ InputEvent.waitClbk c false ∈ (self.WaitKeyPress env).2.2)
    ∧ (∀ K, (self.WaitKeyPress env).1 = some K → K ≠ Key.NO_KEY_PRESSED →
        ∃ (c : Callback) (pre : List InputEvent) (kb : KeyboardState) (p : KeyPair),
          self._waitClbk = some c
          ∧ (self.WaitKeyPress env).2.2
            = pre ++ [InputEvent.waitClbk c true, InputEvent.poll kb]
          ∧ (self.WaitKeyPress env).2.1._keyboardState = some kb
          ∧ kb.down SDL_SCANCODE_RETURN = false
          ∧ kb.down SDL_SCANCODE_ESCAPE = false
          ∧ toSizeT K < 16
          ∧ SdlInput.keyTable[toSizeT K]? = some p
          ∧ p.chip8Key = K
          ∧ kb.down p.sdlKey = true
          ∧ ∀ j q, j < toSizeT K → SdlInput.keyTable[j]? = some q →
              kb.down q.sdlKey = false)
    ∧ (∀ c pre kb rest, self._waitClbk = some c →
        (∀ e ∈ pre, e.1 = true ∧ self.resolves e.2 = false) → self.resolves kb = true →
        ∃ K, (self.WaitKeyPress (pre ++ (true, kb) :: rest)).1 = some K
          ∧ K ≠ Key.NO_KEY_PRESSED) := by
  cases hc : self._waitClbk with
  | none => simp [SdlInput.WaitKeyPress, hc]
  | some c =>
    simp only [SdlInput.WaitKeyPress, hc]
    obtain ⟨h1, h2⟩ := waitLoop_result c env self htab
    refine ⟨?_, ?_, ?_⟩
    · rw [h1]
      simp
    · intro K hK hne
      obtain ⟨pre, kb, p, e1, e2, e3, e4, e5, e6⟩ := h2 K hK hne
      obtain ⟨f1, f2, f3⟩ := keyTable_find_first kb p e5
      rw [e6] at f1 f3
      have hlt : toSizeT K < 16 := (List.getElem?_eq_some_iff.mp f1).1
      exact ⟨c, pre, kb, p, rfl, e1, e2, e3, e4, hlt, f1, e6, f2, f3⟩
    · intro c1 pre kb rest hc1 hpre hres
      simp only [Option.some.injEq] at hc1
      subst hc1
      exact waitLoop_resolves c kb rest pre self htab hpre hres

/-- Witness of C14: after an empty poll and a poll with Return down, keypad 8 and keypad 7
are down together; the wait ends with `KEY_1` (keypad 7), which precedes `KEY_2`
(keypad 8) in keypad order. -/
theorem WaitKeyPress_result_witness :
    (readyInput.WaitKeyPress
        [(true, []), (true, [SDL_SCANCODE_RETURN, SDL_SCANCODE_KP_7]),
         (true, [SDL_SCANCODE_KP_8, SDL_SCANCODE_KP_7]), (false, [])]).1 = some Key.KEY_1
    ∧ ∃ K, (readyInput.WaitKeyPress
        ([(true, []), (true, [SDL_SCANCODE_RETURN, SDL_SCANCODE_KP_7])]
          ++ (true, [SDL_SCANCODE_KP_8, SDL_SCANCODE_KP_7]) :: [(false, [])])).1 = some K
      ∧ K ≠ Key.NO_KEY_PRESSED :=
  ⟨by decide,
   (WaitKeyPress_result readyInput [] rfl).2.2 ⟨3, 30⟩
     [(true, []), (true, [SDL_SCANCODE_RETURN, SDL_SCANCODE_KP_7])]
     [SDL_SCANCODE_KP_8, SDL_SCANCODE_KP_7] [(false, [])] rfl (by decide) (by decide)⟩

/-! ## C16: `Process::Terminate` twice -/

/-- C16: in both variants a second `Terminate` leaves the state as the first left it, and
after `Terminate` the process is not running. On POSIX the second call does nothing at
all (no signal, no log). On Win32 the second call terminates no thread: its
`TerminateThread` and `CloseHandle` are issued on the null handle and fail, which the
function logs. -/
theorem Terminate_idempotent :
    (∀ (p : PosixProcess) (k1 k2 : Int),
      ((p.Terminate k1).1.Terminate k2).1 = (p.Terminate k1).1
      ∧ ((p.Terminate k1).1.Terminate k2).2 = []
      ∧ (p.Terminate k1).1.IsRunning = false
      ∧ (p.Terminate k1).1.pid = 0)
    ∧ (∀ (p : Win32Process) (ok1 ok2 : Bool) (ret : Nat),
      ((p.Terminate ok1).1.Terminate ok2).1 = (p.Terminate ok1).1
      ∧ ((p.Terminate ok1).1.Terminate ok2).2
          = [ProcEvent.terminateThread none false, ProcEvent.logCouldNotTerminate,
             ProcEvent.closeHandle none]
      ∧ (∀ h ok, ProcEvent.terminateThread h ok ∈ ((p.Terminate ok1).1.Terminate ok2).2 →
          h = none ∧ ok = false)
      ∧ (p.Terminate ok1).1.IsRunning ret = false
      ∧ (p.Terminate ok1).1._threadHandle = none) := by
  refine ⟨?_, ?_⟩
  · intro p k1 k2
    by_cases hp : p.pid = 0
    · simp [PosixProcess.Terminate, PosixProcess.IsRunning, hp]
    · simp [PosixProcess.Terminate, PosixProcess.IsRunning, hp]
  · intro p ok1 ok2 ret
    simp [Win32Process.Terminate, Win32Process.IsRunning, TerminateThread]

/-! ## C17: `Process::Join` -/

/-- C17 as stated fails for the Win32 variant: for a thread that did not end by returning
from its function but was terminated with exit code 0, `Join` returns 0, not -1; and a
`Join` that follows `Terminate` (which ends the thread and clears the handle) returns 0
as well. -/
theorem Join_win32_terminated_not_minus_one :
    ((Win32Process.mk (some 7) 1).Join (ThreadEnd.terminated 0)).1 = 0
    ∧ ((Win32Process.mk (some 7) 1).Join (ThreadEnd.terminated 0)).1 ≠ -1
    ∧ (((Win32Process.mk (some 7) 1).Terminate true).1.Join (ThreadEnd.terminated 0)).1 = 0 := by
  decide

/-- C17, amended: `Join` waits on the recorded child or thread first. On POSIX it returns
`s` for a child that exited normally with status `s` and -1 for a child that did not. On
Win32 it returns the exit code `GetExitCodeThread` reports for the thread, read as
`int`, whether the thread returned from its function or was terminated; it has no -1
case. -/
theorem Join_completion_code :
    (∀ (p : PosixProcess) (s : Int),
      (p.Join (WaitStatus.exited s)).1 = s
      ∧ (p.Join (WaitStatus.exited s)).2.2 = [ProcEvent.waitpid p.pid])
    ∧ (∀ (p : PosixProcess) (st : WaitStatus), WIFEXITED st = false →
      (p.Join st).1 = -1 ∧ (p.Join st).2.2 = [ProcEvent.waitpid p.pid])
    ∧ (∀ (h tid : Nat) (e : ThreadEnd),
      ((Win32Process.mk (some h) tid).Join e).1 = dwordToInt e.exitCode
      ∧ ((Win32Process.mk (some h) tid).Join e).2.2.head?
          = some (ProcEvent.waitForSingleObject (some h))
      ∧ ((Win32Process.mk (some h) tid).Join e).2.1._threadHandle = none)
    ∧ (∀ (h tid code : Nat), code < 2 ^ 31 →
      ((Win32Process.mk (some h) tid).Join (ThreadEnd.returned code)).1 = code
      ∧ ((Win32Process.mk (some h) tid).Join (ThreadEnd.terminated code)).1 = code) := by
  refine ⟨?_, ?_, ?_, ?_⟩
  · intro p s
    simp [PosixProcess.Join, WIFEXITED, WEXITSTATUS]
  · intro p st hst
    simp [PosixProcess.Join, hst]
  · intro h tid e
    simp [Win32Process.Join]
  · intro h tid code hcode
    have hmod : code % 2 ^ 32 = code := Nat.mod_eq_of_lt (by omega)
    simp only [Win32Process.Join, ThreadEnd.exitCode, dwordToInt, hmod, hcode, if_true,
      and_self]

/-- Witness of the amended C17: a child killed by signal 2 gives -1 on POSIX; a thread
that returned 3 gives 3 on Win32. -/
theorem Join_completion_code_witness :
    ((PosixProcess.mk 4242).Join (WaitStatus.signaled 2)).1 = -1
    ∧ ((Win32Process.mk (some 7) 1).Join (ThreadEnd.returned 3)).1 = 3 :=
  ⟨(Join_completion_code.2.1 ⟨4242⟩ (WaitStatus.signaled 2) rfl).1,
   (Join_completion_code.2.2.2 7 1 3 (by decide)).1⟩

/-- Witness of C16: a POSIX process with a recorded child, and a Win32 process with a
thread handle, terminated twice. -/
theorem Terminate_idempotent_witness :
    (((PosixProcess.mk 4242).Terminate 0).1.Terminate 0).2 = []
    ∧ (((Win32Process.mk (some 7) 1).Terminate true).1.Terminate true).1
      = ((Win32Process.mk (some 7) 1).Terminate true).1 :=
  ⟨(Terminate_idempotent.1 ⟨4242⟩ 0 0).2.1, (Terminate_idempotent.2 ⟨some 7, 1⟩ true true 0).1⟩

/-! ## C18: the device lock in `SdlSound` -/

/-- C18 as stated fails: `Play` on a device that is not playing writes `_playFreq` and
`_len` without taking the device lock, and `SetSoundFreq` and `SetCountdownFreq` never
take it. -/
theorem Play_not_playing_writes_unlocked :
    (silentSound.Play false 10).2
      = [SoundEvent.write SoundField.playFreq, SoundEvent.write SoundField.len,
         SoundEvent.pauseAudioDevice false]
    ∧ writesLocked false (silentSound.Play false 10).2 = false
    ∧ writesLocked false (silentSound.SetSoundFreq 440).2 = false
    ∧ writesLocked false (silentSound.SetCountdownFreq 60).2 = false := by
  simp [SdlSound.Play, SdlSound.SetSoundFreq, SdlSound.SetCountdownFreq, writesLocked]

/-- C18, amended: while the device is playing, `Play` and `Stop` write `_playFreq` and
`_len` between `SDL_LockAudioDevice` and `SDL_UnlockAudioDevice`. On a device that is not
playing, `Stop` writes nothing and `Play` writes both members without the lock, before it
unpauses the device. `SetSoundFreq` and `SetCountdownFreq` write `_curFreq` and
`_cycleTime` without the lock; the audio callback reads neither: its samples, its device
calls and the members it leaves do not depend on them. -/
theorem sound_lock_discipline (s : SdlSound) (t : Nat) (hz : ℚ) :
    (s.Play true t).2
      = [SoundEvent.lockAudioDevice, SoundEvent.write SoundField.playFreq,
         SoundEvent.write SoundField.len, SoundEvent.unlockAudioDevice,
         SoundEvent.pauseAudioDevice false]
    ∧ writesLocked false (s.Play true t).2 = true
    ∧ (s.Stop true).2
      = [SoundEvent.lockAudioDevice, SoundEvent.write SoundField.len,
         SoundEvent.unlockAudioDevice]
    ∧ writesLocked false (s.Stop true).2 = true
    ∧ s.Stop false = (s, [])
    ∧ (s.Play false t).2
      = [SoundEvent.write SoundField.playFreq, SoundEvent.write SoundField.len,
         SoundEvent.pauseAudioDevice false]
    ∧ (s.Play false t).1 = (s.Play true t).1
    ∧ (s.SetSoundFreq hz).2 = [SoundEvent.write SoundField.curFreq]
    ∧ (s.SetCountdownFreq hz).2 = [SoundEvent.write SoundField.cycleTime]
    ∧ (∀ (c1 c2 : ℚ) (n : Nat),
        ((SdlSound.mk s._specs s._dev s._len s._pos s._amplitude c1 c2 s._playFreq
            s._initialized).audio_callback n).2 = (s.audio_callback n).2
        ∧ ((SdlSound.mk s._specs s._dev s._len s._pos s._amplitude c1 c2 s._playFreq
            s._initialized).audio_callback n).1._len = (s.audio_callback n).1._len
        ∧ ((SdlSound.mk s._specs s._dev s._len s._pos s._amplitude c1 c2 s._playFreq
            s._initialized).audio_callback n).1._pos = (s.audio_callback n).1._pos) := by
  refine ⟨rfl, rfl, rfl, rfl, rfl, rfl, rfl, rfl, rfl, ?_⟩
  intro c1 c2 n
  unfold SdlSound.audio_callback
  split_ifs <;> simp

/-! ## C19: what `Play` sets -/

/-- C19: on a device with a non-zero sample rate, `Play(t)`, playing or not, sets the
remaining length to `t` times `_cycleTime` samples, which is `t` times the sample rate
divided by the countdown frequency; right after `Initialize` that is `t` ticks of 1/60
second. It sets the playing frequency to the configured sound frequency plus `2 * t` Hz,
and `Play(0)` sets the remaining length to zero. This holds for every `t`, in particular
for the values 0..255 of a sound timer. -/
theorem Play_length_and_frequency (s : SdlSound) (playing : Bool) (t : Nat)
    (hf : s.haveFreq ≠ 0) :
    (s.Play playing t).1._len = t * s._cycleTime
    ∧ (s._cycleTime ≠ 0 →
        (s.Play playing t).1._len = t * (s.haveFreq / s.GetCountdownFreq))
    ∧ (s.Play playing t).1.GetPlayFreq = s.GetSoundFreq + 2 * t
    ∧ (∀ hz, ((s.SetSoundFreq hz).1.Play playing t).1.GetPlayFreq = hz + 2 * t)
    ∧ (s.Play playing 0).1._len = 0
    ∧ (∀ (self : SdlSound) (dev : Nat) (f : Int) (d : ℚ), 2 ≤ dev → f ≠ 0 →
        (self.Initialize false true dev f d).1 = true
        ∧ (((self.Initialize false true dev f d).2.Play playing t).1._len
            = t * ((f : ℚ) / 60))
        ∧ (((self.Initialize false true dev f d).2.Play playing t).1._len / (f : ℚ)
            = t / 60)
        ∧ (((self.Initialize false true dev f d).2.Play playing t).1.GetPlayFreq
            = d + 2 * t)) := by
  have hplay : ∀ (x : SdlSound) (n : Nat), (x.Play playing n).1
      = (x.SetPlayFreq (x.GetCurFreq + 2 * n)).SetLenght n := by
    intro x n
    cases playing <;> rfl
  refine ⟨?_, ?_, ?_, ?_, ?_, ?_⟩
  · rw [hplay]
    simp [SdlSound.SetLenght, SdlSound.SetPlayFreq, mul_comm]
  · intro hc
    rw [hplay]
    simp only [SdlSound.SetLenght, SdlSound.SetPlayFreq, SdlSound.GetCountdownFreq]
    field_simp
    ring
  · rw [hplay]
    simp only [SdlSound.GetPlayFreq, SdlSound.SetLenght, SdlSound.SetPlayFreq,
      SdlSound.GetSoundFreq, SdlSound.haveFreq]
    have hf2 := hf
    unfold SdlSound.haveFreq at hf2
    field_simp
  · intro hz
    rw [hplay]
    have hf2 := hf
    unfold SdlSound.haveFreq at hf2
    simp only [SdlSound.GetPlayFreq, SdlSound.SetLenght, SdlSound.SetPlayFreq,
      SdlSound.SetSoundFreq, SdlSound.SetCurFreq, SdlSound.GetCurFreq, SdlSound.haveFreq]
    field_simp
  · rw [hplay]
    simp [SdlSound.SetLenght, SdlSound.SetPlayFreq]
  · intro self dev f d hdev hfz
    have hq : (f : ℚ) ≠ 0 := by exact_mod_cast hfz
    have hnd : ¬ dev < 2 := by omega
    have hinit : (self.Initialize false true dev f d)
        = (true, SdlSound.SetCurFreq
            ⟨some f, dev, 0, 0, 16000, (f : ℚ) / 60,
              (if self._initialized then self.Dispose else self)._curFreq,
              (if self._initialized then self.Dispose else self)._playFreq, true⟩ d) := by
      simp [SdlSound.Initialize, hnd]
    rw [hinit, hplay]
    refine ⟨rfl, ?_, ?_, ?_⟩
    · simp [SdlSound.SetLenght, SdlSound.SetPlayFreq, SdlSound.SetCurFreq, mul_comm]
    · simp only [SdlSound.SetLenght, SdlSound.SetPlayFreq, SdlSound.SetCurFreq]
      field_simp
      ring
    · simp only [SdlSound.GetPlayFreq, SdlSound.SetLenght, SdlSound.SetPlayFreq,
        SdlSound.SetCurFreq, SdlSound.GetCurFreq, SdlSound.haveFreq]
      field_simp

/-- Witness of C19: after `Initialize` on a 44100 Hz device with sound frequency 350 Hz,
`Play(10)` leaves 7350 samples, that is 10/60 second, at 370 Hz. -/
theorem Play_length_and_frequency_witness :
    (readySound.Play false 10).1._len = 10 * readySound._cycleTime
    ∧ readySound._cycleTime = 735
    ∧ (readySound.Play false 10).1.GetPlayFreq = readySound.GetSoundFreq + 2 * 10
    ∧ readySound.GetSoundFreq = 350 :=
  ⟨by
      have h := (Play_length_and_frequency readySound false 10
        (by norm_num [readySound, SdlSound.Initialize, SdlSound.SetCurFreq,
              SdlSound.haveFreq])).1
      simpa using h,
   by norm_num [readySound, SdlSound.Initialize, SdlSound.SetCurFreq],
   by
      have h := (Play_length_and_frequency readySound false 10
        (by norm_num [readySound, SdlSound.Initialize, SdlSound.SetCurFreq,
              SdlSound.haveFreq])).2.2.1
      simpa using h,
   by norm_num [readySound, SdlSound.Initialize, SdlSound.SetCurFreq, SdlSound.GetSoundFreq,
        SdlSound.GetCurFreq, SdlSound.haveFreq]⟩

/-! ## C20: the amplitude ramp of `audio_callback` -/

theorem rampSamples_length (freq : ℚ) (n : Nat) :
    ∀ (a : Int) (pos : Nat), (rampSamples freq a pos n).length = n := by
  induction n with
  | zero => intro a pos; rfl
  | succ n ih => intro a pos; simp [rampSamples, ih]

theorem rampSamples_getElem (freq : ℚ) (n : Nat) :
    ∀ (a : Int) (pos i : Nat), i < n →
      (rampSamples freq a pos n)[i]? = some ⟨rampAmpl a i, freq, pos + i⟩ := by
  induction n with
  | zero => intro a pos i hi; omega
  | succ n ih =>
    intro a pos i hi
    cases i with
    | zero => simp [rampSamples, rampAmpl]
    | succ i =>
      simp only [rampSamples, List.getElem?_cons_succ, rampAmpl]
      rw [ih _ _ i (by omega)]
      congr 2
      omega

theorem rampAmpl_succ_le (i : Nat) : ∀ a : Int, rampAmpl a (i + 1) ≤ rampAmpl a i := by
  induction i with
  | zero =>
    intro a
    simp only [rampAmpl]
    split_ifs <;> omega
  | succ i ih =>
    intro a
    exact ih (if a > 100 then a - 60 else a)

theorem rampAmpl_mono (a : Int) (i j : Nat) (hij : i ≤ j) : rampAmpl a j ≤ rampAmpl a i := by
  induction j with
  | zero =>
    have : i = 0 := by omega
    subst this
    exact le_refl _
  | succ j ih =>
    by_cases h : i = j + 1
    · subst h
      exact le_refl _
    · exact le_trans (rampAmpl_succ_le j a) (ih (by omega))

theorem rampAmpl_16000 (i : Nat) :
    ∀ k : Nat, k ≤ 265 →
      rampAmpl (16000 - 60 * (k : Int)) i
        = if k + i ≤ 265 then 16000 - 60 * ((k + i : Nat) : Int) else 100 := by
  induction i with
  | zero =>
    intro k hk
    simp [rampAmpl, hk]
  | succ i ih =>
    intro k hk
    simp only [rampAmpl]
    by_cases hk2 : k = 265
    · subst hk2
      have h1 : ¬ ((16000 : Int) - 60 * ((265 : Nat) : Int) > 100) := by norm_num
      rw [if_neg h1, ih 265 (le_refl _)]
      have h2 : ¬ (265 + (i + 1) ≤ 265) := by omega
      rw [if_neg h2]
      split_ifs with h3
      · have : i = 0 := by omega
        subst this
        norm_num
      · rfl
    · have hlt : k < 265 := by omega
      have h1 : (16000 : Int) - 60 * (k : Int) > 100 := by omega
      rw [if_pos h1]
      have h2 : (16000 : Int) - 60 * (k : Int) - 60 = 16000 - 60 * ((k + 1 : Nat) : Int) := by
        push_cast
        ring
      rw [h2, ih (k + 1) (by omega)]
      have h3 : k + 1 + i = k + (i + 1) := by omega
      rw [h3]

/-- C20 as stated fails: with remaining length 0, amplitude 16000 and a buffer of 1024
samples, the amplitude of the last sample is 100, not 0; the ramp stops at 100 from
sample 265 on. -/
theorem ramp_ends_at_100 :
    (silentSound.audio_callback 1024).2.1[1023]? = some ⟨100, 37 / 4410, 512 + 1023⟩
    ∧ (silentSound.audio_callback 1024).2.1[265]? = some ⟨100, 37 / 4410, 512 + 265⟩
    ∧ (silentSound.audio_callback 1024).2.1.length = 1024
    ∧ ¬ ∃ smp, (silentSound.audio_callback 1024).2.1[1023]? = some smp ∧ smp.ampl = 0 := by
  have hcb : (silentSound.audio_callback 1024).2.1
      = rampSamples (37 / 4410) 16000 512 1024 := by
    simp [SdlSound.audio_callback, silentSound]
  have h0 := rampAmpl_16000 1023 0 (by omega)
  have h1 := rampAmpl_16000 265 0 (by omega)
  norm_num at h0 h1
  rw [hcb]
  refine ⟨?_, ?_, rampSamples_length _ _ _ _, ?_⟩
  · rw [rampSamples_getElem _ _ _ _ 1023 (by omega), h0]
  · rw [rampSamples_getElem _ _ _ _ 265 (by omega), h1]
  · rintro ⟨smp, hs, hz⟩
    rw [rampSamples_getElem _ _ _ _ 1023 (by omega), h0] at hs
    simp only [Option.some.injEq] at hs
    rw [← hs] at hz
    norm_num at hz

/-- C20, amended: when the callback runs with remaining length at most 0 and amplitude
16000 on a buffer of 1024 samples, sample `i` is computed with amplitude `16000 - 60 i`
up to `i = 265` and with amplitude 100 from there on: the amplitudes are non-increasing
and end at the floor 100, never at 0. The callback leaves the remaining length as it is,
sets the position to 0 and pauses the device. For any amplitude and buffer length the
amplitudes are non-increasing. -/
theorem audio_callback_ramp (s : SdlSound) (hlen : s._len ≤ 0) :
    (s.audio_callback 1024).1._pos = 0
    ∧ (s.audio_callback 1024).1._len = s._len
    ∧ (s.audio_callback 1024).2.2 = [SoundEvent.pauseAudioDevice true]
    ∧ (∀ n, (s.audio_callback n).2.1.length = n)
    ∧ (∀ (n i j : Nat) (a b : Sample), i ≤ j → (s.audio_callback n).2.1[i]? = some a →
        (s.audio_callback n).2.1[j]? = some b → b.ampl ≤ a.ampl)
    ∧ (s._amplitude = 16000 → ∀ i, i < 1024 →
        (s.audio_callback 1024).2.1[i]?
          = some ⟨if i ≤ 265 then 16000 - 60 * (i : Int) else 100, s._playFreq, s._pos + i⟩) := by
  have hnot : ¬ s._len > 0 := not_lt.mpr hlen
  have hcb : ∀ n, s.audio_callback n
      = (⟨s._specs, s._dev, s._len, 0, s._amplitude, s._cycleTime, s._curFreq, s._playFreq,
          s._initialized⟩,
         rampSamples s._playFreq s._amplitude s._pos n,
         [SoundEvent.pauseAudioDevice true]) := by
    intro n
    simp [SdlSound.audio_callback, hnot]
  refine ⟨by rw [hcb], by rw [hcb], by rw [hcb], ?_, ?_, ?_⟩
  · intro n
    rw [hcb]
    exact rampSamples_length _ _ _ _
  · intro n i j a b hij ha hb
    rw [hcb] at ha hb
    simp only at ha hb
    have hj : j < n := by
      have := (List.getElem?_eq_some_iff.mp hb).1
      rwa [rampSamples_length] at this
    rw [rampSamples_getElem _ _ _ _ i (by omega)] at ha
    rw [rampSamples_getElem _ _ _ _ j hj] at hb
    simp only [Option.some.injEq] at ha hb
    rw [← ha, ← hb]
    exact rampAmpl_mono _ i j hij
  · intro hampl i hi
    rw [hcb]
    simp only
    rw [rampSamples_getElem _ _ _ _ i hi, hampl]
    have := rampAmpl_16000 i 0 (by omega)
    simp only [Nat.cast_zero, mul_zero, sub_zero, Nat.zero_add] at this
    rw [this]

/-- Witness of the amended C20 on a sound object with remaining length 0. -/
theorem audio_callback_ramp_witness :
    (silentSound.audio_callback 1024).1._pos = 0
    ∧ (silentSound.audio_callback 1024).2.2 = [SoundEvent.pauseAudioDevice true] :=
  ⟨(audio_callback_ramp silentSound (by norm_num [silentSound])).1,
   (audio_callback_ramp silentSound (by norm_num [silentSound])).2.2.1⟩

/-! ## C21: `SdlRender::UpdateEvents` -/

theorem UpdateEvents_by_type (self : SdlRender) (queue : List SDL_Event) :
    ((self.UpdateEvents queue).1 = true ↔ ∃ e ∈ queue, e.hitsSwitch = true)
    ∧ ((self.UpdateEvents queue).1 = false →
        (self.UpdateEvents queue).2.1 = []
        ∧ (self.UpdateEvents queue).2.2 = queue.map RenderEvent.pollEvent) := by
  induction queue with
  | nil => simp [SdlRender.UpdateEvents]
  | cons e queue ih =>
    unfold SdlRender.UpdateEvents
    by_cases h1 : e.type = SDL_WINDOWEVENT_RESIZED ∨ e.type = SDL_WINDOWEVENT_RESTORED
    · have hh : e.hitsSwitch = true := by
        rcases h1 with h | h <;> simp [SDL_Event.hitsSwitch, h]
      simp only [h1, if_true]
      exact ⟨⟨fun _ => ⟨e, by simp, hh⟩, fun _ => trivial⟩, fun h => by simp at h⟩
    · by_cases h2 : e.type = SDL_QUIT ∨ e.type = SDL_WINDOWEVENT_CLOSE
      · have hh : e.hitsSwitch = true := by
          rcases h2 with h | h <;> simp [SDL_Event.hitsSwitch, h]
        simp only [h1, h2, if_true, if_false]
        exact ⟨⟨fun _ => ⟨e, by simp, hh⟩, fun _ => trivial⟩, fun h => by simp at h⟩
      · have hh : e.hitsSwitch = false := by
          simp only [not_or] at h1 h2
          simp [SDL_Event.hitsSwitch, h1.1, h1.2, h2.1, h2.2]
        simp only [h1, h2, if_false]
        refine ⟨?_, ?_⟩
        · rw [ih.1]
          simp [hh]
        · intro h
          obtain ⟨i1, i2⟩ := ih.2 h
          simp [i1, i2]

/-- C21: evaluation of `UpdateEvents` on window events as SDL delivers them. The `switch`
is on `m_sdlevent.type`, and a resize, restore or close of the window arrives with type
`SDL_WINDOWEVENT` and the kind in `window.event`: such an event hits no case, so with
both callbacks bound the function drains the queue, invokes nothing and returns false.
Only `SDL_QUIT`, which is an event type, is recognised. -/
theorem UpdateEvents_misses_window_events :
    SDL_Event.isResizeKind ⟨SDL_WINDOWEVENT, SDL_WINDOWEVENT_RESIZED⟩ = true
    ∧ readyRender.UpdateEvents [⟨SDL_WINDOWEVENT, SDL_WINDOWEVENT_RESIZED⟩, ⟨0x300, 0⟩]
      = (false, [],
          [RenderEvent.pollEvent ⟨SDL_WINDOWEVENT, SDL_WINDOWEVENT_RESIZED⟩,
           RenderEvent.pollEvent ⟨0x300, 0⟩])
    ∧ SDL_Event.isResizeKind ⟨SDL_WINDOWEVENT, SDL_WINDOWEVENT_RESTORED⟩ = true
    ∧ (readyRender.UpdateEvents [⟨SDL_WINDOWEVENT, SDL_WINDOWEVENT_RESTORED⟩]).1 = false
    ∧ SDL_Event.isCloseKind ⟨SDL_WINDOWEVENT, SDL_WINDOWEVENT_CLOSE⟩ = true
    ∧ readyRender.UpdateEvents [⟨SDL_WINDOWEVENT, SDL_WINDOWEVENT_CLOSE⟩]
      = (false, [], [RenderEvent.pollEvent ⟨SDL_WINDOWEVENT, SDL_WINDOWEVENT_CLOSE⟩])
    ∧ readyRender.UpdateEvents [⟨0x300, 0⟩, ⟨SDL_QUIT, 0⟩, ⟨0x300, 0⟩]
      = (true, [⟨0x300, 0⟩],
          [RenderEvent.pollEvent ⟨0x300, 0⟩, RenderEvent.pollEvent ⟨SDL_QUIT, 0⟩,
           RenderEvent.closeClbk ⟨1, 10⟩]) := by
  decide

/-! ## C22: `SdlRender::Dispose` and `CreateTexture` -/

/-- C22: evaluation of `Initialize; Dispose; Initialize` and of `Initialize` on an
initialized renderer. `Dispose` clears `m_window` but keeps `m_rend` and `m_texture`, so
after it the object still holds the destroyed renderer 2 and texture 3, and the
`CreateTexture` of the next `Initialize` passes texture 3 to `SDL_DestroyTexture` a
second time. -/
theorem Dispose_keeps_destroyed_texture :
    (SdlRender.new.Initialize firstVideo 64).1 = true
    ∧ (SdlRender.new.Initialize firstVideo 64).2.1.Dispose.1.m_window = none
    ∧ (SdlRender.new.Initialize firstVideo 64).2.1.Dispose.1.m_rend = some 2
    ∧ (SdlRender.new.Initialize firstVideo 64).2.1.Dispose.1.m_texture = some 3
    ∧ RenderEvent.destroyTexture (some 3)
        ∈ (SdlRender.new.Initialize firstVideo 64).2.1.Dispose.2
    ∧ ((SdlRender.new.Initialize firstVideo 64).2.1.Dispose.1.Initialize secondVideo 64).2.2
      = [RenderEvent.initSubSystem, RenderEvent.createWindow (some 4),
         RenderEvent.createRenderer (some 5), RenderEvent.createTexture (some 6),
         RenderEvent.setTextureBlendMode (some 6), RenderEvent.destroyTexture (some 3),
         RenderEvent.clearAndPresent (some 5)]
    ∧ List.count (RenderEvent.destroyTexture (some 3))
        ((SdlRender.new.Initialize firstVideo 64).2.1.Dispose.2
          ++ ((SdlRender.new.Initialize firstVideo 64).2.1.Dispose.1.Initialize
                secondVideo 64).2.2) = 2
    ∧ List.count (RenderEvent.destroyTexture (some 3))
        ((SdlRender.new.Initialize firstVideo 64).2.1.Initialize secondVideo 64).2.2 = 2 := by
  decide

/-! ## C23: `Process::Join` (POSIX) and the recorded pid -/

/-- C23: evaluation of `Join` on a child that exited normally. The function returns
before `pid = 0`, so the pid of the reaped child stays recorded, `IsRunning` is true, and
both a later `Terminate` and the destructor send `SIGINT` to it. Only after a child that
did not exit normally is the pid cleared. -/
theorem Join_normal_exit_keeps_pid :
    ((PosixProcess.mk 4242).Join (WaitStatus.exited 0)).2.1 = ⟨4242⟩
    ∧ ((PosixProcess.mk 4242).Join (WaitStatus.exited 0)).2.1.IsRunning = true
    ∧ (((PosixProcess.mk 4242).Join (WaitStatus.exited 0)).2.1.Terminate 0).2
      = [ProcEvent.logSentSignal, ProcEvent.kill 4242]
    ∧ (((PosixProcess.mk 4242).Join (WaitStatus.exited 0)).2.1.destructor 0).2
      = [ProcEvent.logSentSignal, ProcEvent.kill 4242]
    ∧ ((PosixProcess.mk 4242).Join (WaitStatus.signaled 9)).2.1.IsRunning = false
    ∧ (((PosixProcess.mk 4242).Join (WaitStatus.signaled 9)).2.1.destructor 0).2 = [] := by
  decide

/-! ## C25: `RWrap::operator=` -/

/-- C25: evaluation of `operator=` on a wrapper holding resource 7. The functor is applied
to the address of the member, not to the held value, and without the null test of the
destructor: resource 7 is never released by the assignment or the destruction after it,
and on a wrapper holding null the functor is applied all the same. The assignment the
claim describes would have released 7. -/
theorem assign_does_not_release_as_destructor :
    ((RWrap.mk (some 7)).assign (some 9)).2 = [RWrapEvent.apply FunctorArg.addressOfMember]
    ∧ (RWrap.mk (some 7)).destructor = [RWrapEvent.apply (FunctorArg.value (some 7))]
    ∧ ((RWrap.mk (some 7)).assign_asDestructor (some 9)).2
      = [RWrapEvent.apply (FunctorArg.value (some 7))]
    ∧ (RWrap.mk (some 7)).assign (some 9) ≠ (RWrap.mk (some 7)).assign_asDestructor (some 9)
    ∧ RWrapEvent.apply (FunctorArg.value (some 7))
        ∉ ((RWrap.mk (some 7)).assign (some 9)).2
          ++ ((RWrap.mk (some 7)).assign (some 9)).1.destructor
    ∧ ((RWrap.mk none).assign (some 9)).2 = [RWrapEvent.apply FunctorArg.addressOfMember]
    ∧ (RWrap.mk none).destructor = [] := by
  decide

/-! ## C24: `FillRomPath` -/

/-- C24: for every directory path `d` and file name `f`, on either platform, the index
`dest->size() - 1` is inside `dest` (which starts with the quote), so `at()` does not
throw, and the two-argument `FillRomPath` stores the quote, `d`, the separator, `f` and
the quote, where the separator is empty when `d` ends with the directory slash and is
the slash otherwise, the empty `d` included. The one-argument `FillRomPath` stores
`fullPath` between quotes. -/
theorem FillRomPath_stores_quoted_path (dirSlash : Char) (d f : StdString)
    (hs : dirSlash = dirSlashPosix ∨ dirSlash = dirSlashWin32) :
    ([Char.ofNat 34] ++ d).length - 1 < ([Char.ofNat 34] ++ d).length
    ∧ FillRomPath dirSlash d f
      = some ([Char.ofNat 34] ++ d
          ++ (if d.getLast? = some dirSlash then [] else [dirSlash])
          ++ f ++ [Char.ofNat 34])
    ∧ (d = [] →
        FillRomPath dirSlash d f = some ([Char.ofNat 34] ++ [dirSlash] ++ f ++ [Char.ofNat 34]))
    ∧ (∀ fullPath : StdString,
        FillRomPath_fullPath fullPath = [Char.ofNat 34] ++ fullPath ++ [Char.ofNat 34]) := by
  have hq : Char.ofNat 34 ≠ dirSlash := by
    rcases hs with h | h <;> rw [h] <;> decide
  have hmain : FillRomPath dirSlash d f
      = some ([Char.ofNat 34] ++ d
          ++ (if d.getLast? = some dirSlash then [] else [dirSlash])
          ++ f ++ [Char.ofNat 34]) := by
    rcases List.eq_nil_or_concat d with hd | ⟨d1, x, hd⟩
    · subst hd
      simp [FillRomPath, hq]
    · subst hd
      have hidx : ([Char.ofNat 34] ++ (d1 ++ [x]))[([Char.ofNat 34] ++ (d1 ++ [x])).length - 1]?
          = some x := by
        have hlen : ([Char.ofNat 34] ++ (d1 ++ [x])).length - 1 = ([Char.ofNat 34] ++ d1).length := by
          simp
        rw [hlen, ← List.append_assoc, List.getElem?_append_right (Nat.le_refl _)]
        simp
      simp only [FillRomPath, hidx]
      by_cases hx : x = dirSlash
      · simp [hx]
      · have hx2 : ¬ (some x = some dirSlash) := by simpa using hx
        simp [hx, hx2]
  refine ⟨by simp, hmain, ?_, fun _ => rfl⟩
  intro hd
  rw [hmain, hd]
  simp

/-- Witness of C24 on Linux: a directory without and with the trailing slash, and the
empty directory. -/
theorem FillRomPath_stores_quoted_path_witness :
    FillRomPath dirSlashPosix "roms".toList "pong.ch8".toList
      = some "\"roms/pong.ch8\"".toList
    ∧ FillRomPath dirSlashPosix "roms/".toList "pong.ch8".toList
      = some "\"roms/pong.ch8\"".toList
    ∧ FillRomPath dirSlashPosix [] "pong.ch8".toList
      = some ([Char.ofNat 34] ++ [dirSlashPosix] ++ "pong.ch8".toList ++ [Char.ofNat 34]) :=
  ⟨by decide, by decide,
   (FillRomPath_stores_quoted_path dirSlashPosix [] "pong.ch8".toList (Or.inl rfl)).2.2.1 rfl⟩

end XChip
